import Mathlib

/-!
Shallow embedding of the Rumi → Gundi integration (app/actions/client.py,
app/actions/configurations.py, app/actions/handlers.py) and proofs about it.

Modelling conventions:
* Python dicts with string keys/values become association lists with
  insert-in-place-or-append semantics (`dinsert`), matching CPython's
  insertion-ordered dicts.  A value is "falsy" exactly when it is `""`.
* UTC instants become `Int` (the code only compares, maximises and copies
  them; the string round-trip through `strftime`/`isoformat` is injective
  on instants).
* Latitude/longitude floats become `ℚ` (the code never does arithmetic on
  them, only parsing and copying).
* Each `async` handler becomes a pure function of the outcomes of its
  network calls (the repository's own tests mock the client at exactly this
  boundary); raised exceptions become `Except` errors, and the handler's
  externally visible effects (batches sent to the sink, state writes) are
  returned explicitly.
-/

deriving instance DecidableEq for Except

namespace Rumi

/-- Python dict with string keys and values, as an insertion-ordered
association list.  `dinsert` updates an existing key in place or appends. -/
abbrev Dict := List (String × String)

def dinsert : Dict → String → String → Dict
  | [], k, v => [(k, v)]
  | (k', v') :: rest, k, v =>
    if k' = k then (k, v) :: rest else (k', v') :: dinsert rest k v

def dlookup : Dict → String → Option String
  | [], _ => none
  | (k', v') :: rest, k => if k' = k then some v' else dlookup rest k

/-- Python `\x7b **base, **extra \x7d` / successive insertion of `extra` into `base`. -/
def dmerge (base : Dict) (extra : Dict) : Dict :=
  extra.foldl (fun m kv => dinsert m kv.1 kv.2) base

/-- One animal record from the vendor roster (a JSON object). -/
abbrev Animal := Dict

/-- `animals_info`: the roster map built by `client.get_animals_info`,
category name ("bull" / "cow" / "calf") to list of animal records. -/
abbrev AnimalsInfo := List (String × List Animal)

/-- client.py `Farm` (pydantic model): id (aliased from `_id`), name,
optional `nif` / `rega`. -/
structure Farm where
  id : String
  name : String
  nif : Option String := none
  rega : Option String := none
deriving DecidableEq, Repr

/-- client.py `FarmLocation` (pydantic model): location parsed from the
`"<lat>::<lon>"` string, UTC time, device name, official tag. -/
structure FarmLocation where
  location : ℚ × ℚ
  time : Int
  device_name : String
  official_tag : String
deriving DecidableEq, Repr

/-- configurations.py `PullFarmObservationsConfig`. -/
structure PullFarmObservationsConfig where
  start : Int
  stop : Int
  locations : String := "all"
  farm_id : String
  farm_name : String
  user_id : String
  token : String
deriving DecidableEq, Repr

/-- The canonical observation dict built by `transform`. -/
structure CanonicalObservation where
  source_name : String
  source : String
  type : String
  subject_type : String
  recorded_at : Int
  lat : ℚ
  lon : ℚ
  additional : Dict
deriving DecidableEq, Repr

/-- The per-`rumi_id` lookup built inside `transform`
(`rumi_id_map` in handlers.py). -/
abbrev RMap := List (String × Dict)

def rinsert : RMap → String → Dict → RMap
  | [], k, v => [(k, v)]
  | (k', v') :: rest, k, v =>
    if k' = k then (k, v) :: rest else (k', v') :: rinsert rest k v

def rlookup : RMap → String → Option Dict
  | [], _ => none
  | (k', v') :: rest, k => if k' = k then some v' else rlookup rest k

/-- handlers.py line 23: the entry `\x7b"type": animal_type, **animal\x7d`. -/
def mergedRecord (animal_type : String) (animal : Animal) : Dict :=
  dmerge [("type", animal_type)] animal

/-- Inserting one category's records into `rumi_id_map`; `none` models the
`KeyError` raised by `animal["rumi_id"]` when a record lacks that key. -/
def insertCategory (animal_type : String) : List Animal → RMap → Option RMap
  | [], m => some m
  | a :: rest, m =>
    match dlookup a "rumi_id" with
    | none => none
    | some rid => insertCategory animal_type rest (rinsert m rid (mergedRecord animal_type a))

/-- handlers.py lines 22-26: the `rumi_id_map` dict comprehension, iterating
categories then records; `none` models the `KeyError` on a missing `rumi_id`. -/
def buildRumiIdMap : AnimalsInfo → RMap → Option RMap
  | [], m => some m
  | (animal_type, animals) :: rest, m =>
    match insertCategory animal_type animals m with
    | none => none
    | some m2 => buildRumiIdMap rest m2

/-- handlers.py `transform(farm, animals_info, observation)`.  `none` models
the `KeyError` raised while building `rumi_id_map` (the only failure point:
the rest of the body only uses total `.get` accesses).  A missing dict key
rendered by an f-string becomes the literal `"None"`, as in Python. -/
def transform (farm : PullFarmObservationsConfig) (animals_info : AnimalsInfo)
    (observation : FarmLocation) : Option CanonicalObservation :=
  match buildRumiIdMap animals_info [] with
  | none => none
  | some rumi_id_map =>
    let animal_info := rlookup rumi_id_map observation.device_name
    let source_name :=
      match animal_info with
      | some info =>
        ((dlookup info "name").getD observation.official_tag) ++ " (" ++
          ((dlookup info "rumi_id").getD "None") ++ ")"
      | none => observation.official_tag ++ " (" ++ observation.device_name ++ ")"
    let subject_type :=
      match animal_info with
      | some info => "rumi-" ++ ((dlookup info "type").getD "None")
      | none => "unassigned"
    let additional_info := (animal_info.getD []).filter (fun kv => kv.2 ≠ "")
    some {
      source_name := source_name
      source := observation.official_tag
      type := "tracking-device"
      subject_type := subject_type
      recorded_at := observation.time
      lat := observation.location.1
      lon := observation.location.2
      additional :=
        dmerge [("farm_id", farm.farm_id), ("farm_name", farm.farm_name),
                ("subject_name", source_name)] additional_info
    }

/-! ### Location parsing (client.py `FarmLocation.split_location`)
`lat, lon = v.split("::")` then `float(lat), float(lon)`.  Python's `float`
builtin is modelled by `parseFloat` over exact rationals: optional sign,
decimal digits with an optional single point (at least one digit), and an
optional exponent part; anything else fails.  `splitColons` is `str.split`
with the two-character separator `"::"` (leftmost, non-overlapping). -/

def digitsVal (l : List Char) : Nat :=
  l.foldl (fun n c => 10 * n + (c.toNat - '0'.toNat)) 0

/-- Python's unary sign prefix: returns (negative?, rest). -/
def stripSign (l : List Char) : Bool × List Char :=
  match l with
  | [] => (false, [])
  | c :: r =>
    if c = '-' then (true, r)
    else if c = '+' then (false, r)
    else (false, c :: r)

/-- The optional exponent suffix: `""` contributes exponent 0; otherwise
`e`/`E`, an optional sign and at least one digit. -/
def parseExpPart (l : List Char) : Option Int :=
  match l with
  | [] => some 0
  | c :: r =>
    if c = 'e' ∨ c = 'E' then
      let sp := stripSign r
      if !sp.2.isEmpty && sp.2.all Char.isDigit then
        some (if sp.1 then -(digitsVal sp.2 : Int) else (digitsVal sp.2 : Int))
      else none
    else none

/-- Model of Python's `float()` on the decimal forms the vendor emits:
optional sign, integer and/or fractional digits around an optional point,
optional exponent.  (The builtin's exotic inputs — whitespace, underscores,
`inf`/`nan` — are out of scope; `float` is a language builtin, not repo code.) -/
def parseFloat (l : List Char) : Option ℚ :=
  let sp := stripSign l
  let sgn : ℚ := if sp.1 then -1 else 1
  let ip := sp.2.takeWhile Char.isDigit
  let r1 := sp.2.dropWhile Char.isDigit
  if r1.head? = some '.' then
    let r2 := r1.tail
    let fp := r2.takeWhile Char.isDigit
    let r3 := r2.dropWhile Char.isDigit
    if ip.isEmpty && fp.isEmpty then none
    else (parseExpPart r3).map fun e =>
      sgn * ((digitsVal ip : ℚ) + (digitsVal fp : ℚ) / (10 : ℚ) ^ fp.length) * (10 : ℚ) ^ e
  else
    if ip.isEmpty then none
    else (parseExpPart r1).map fun e => sgn * (digitsVal ip : ℚ) * (10 : ℚ) ^ e

def consHead (c : Char) : List (List Char) → List (List Char)
  | [] => [[c]]
  | h :: t => (c :: h) :: t

/-- Python `str.split("::")` on a character list: split at each leftmost
non-overlapping occurrence of `"::"`. -/
def splitColons : List Char → List (List Char)
  | [] => [[]]
  | [c] => [[c]]
  | c :: c2 :: rest =>
    if c = ':' ∧ c2 = ':' then [] :: splitColons rest
    else consHead c (splitColons (c2 :: rest))

/-- client.py `FarmLocation.split_location`: `lat, lon = v.split("::")`
(raising unless the split has exactly two parts) then `float` on both halves. -/
def split_location (v : String) : Option (ℚ × ℚ) :=
  match splitColons v.toList with
  | [lat, lon] =>
    match parseFloat lat, parseFloat lon with
    | some a, some b => some (a, b)
    | _, _ => none
  | _ => none

/-! ### State store (app/services/state.IntegrationStateManager, external collaborator)
Namespaced key-value store keyed by (integration_id, action_id, source_id).
The cursor namespace stores `\x7b"updated_at": <timestamp>\x7d`; the enrichment-cache
namespace stores the roster map.  TTL expiry is modelled as key removal. -/

structure StateKey where
  integration_id : String
  action_id : String
  source_id : String
deriving DecidableEq, Repr

inductive StateVal where
  | roster (ai : AnimalsInfo)
  | cursor (updated_at : Int)
deriving DecidableEq, Repr

abbrev StateStore := List (StateKey × StateVal)

def getState : StateStore → StateKey → Option StateVal
  | [], _ => none
  | (k', v') :: rest, k => if k' = k then some v' else getState rest k

def setState : StateStore → StateKey → StateVal → StateStore
  | [], k, v => [(k, v)]
  | (k', v') :: rest, k, v =>
    if k' = k then (k, v) :: rest else (k', v') :: setState rest k v

/-- The backend dropping a key whose TTL elapsed. -/
def expireState (s : StateStore) (k : StateKey) : StateStore :=
  s.filter (fun kv => kv.1 ≠ k)

/-! ### Vendor API client (app/actions/client.py)
Each operation is modelled over the outcome of its HTTP exchange: an error
status (if any), the decoded JSON array, and the raw response text.  For a
real response the text is the serialization of the body, so a falsy JSON
body (`[]`) always has non-empty text (`"[]"`). -/

inductive RumiError where
  | unauthorized (status : Nat)
  | notFound (status : Nat)
  | httpStatus (status : Nat)
deriving DecidableEq, Repr

inductive FetchError where
  | rumi (e : RumiError)
  | validation
  | attributeError
deriving DecidableEq, Repr

/-- client.py lines 71-84 error classification, shared by all three operations:
401 → `RumiUnauthorizedException` (status_code defaults to 401),
404 → `RumiNotFoundException` (status_code defaults to 404),
any other error status re-raised as `httpx.HTTPStatusError`. -/
def classifyStatus (s : Nat) : RumiError :=
  if s = 401 then .unauthorized 401
  else if s = 404 then .notFound 404
  else .httpStatus s

/-- Result of `client.get_farms`: a parsed farm list when the JSON body is
truthy, otherwise the raw `response.text` (client.py line 78). -/
inductive FarmsFetchResult where
  | farms (l : List Farm)
  | rawText (s : String)
deriving DecidableEq, Repr

/-- client.py `get_farms` over the HTTP outcome.  Item-level pydantic
validation of farm objects is not modelled (no claim touches it). -/
def get_farms (statusError : Option Nat) (body : List Farm) (text : String) :
    Except RumiError FarmsFetchResult :=
  match statusError with
  | some s => .error (classifyStatus s)
  | none => if body.isEmpty then .ok (.rawText text) else .ok (.farms body)

/-- A raw observation object from the vendor JSON. -/
structure RawObservation where
  location_str : String
  time : Int
  device_name : String
  official_tag : String
deriving DecidableEq, Repr

/-- An observations-fetch result as the handler consumes it: parsed
observations when the JSON body is truthy, otherwise the raw
`response.text` (client.py lines 107/110, code that is in fact
unreachable — see `get_farm_observations`). -/
inductive ObsFetchResult where
  | observations (l : List FarmLocation)
  | rawText (s : String)
deriving DecidableEq, Repr

/-- client.py `FarmLocation.parse_obj`: validates one raw observation,
failing when the `_location` string does not split into two floats. -/
def FarmLocation.parse (r : RawObservation) : Option FarmLocation :=
  (split_location r.location_str).map fun loc =>
    { location := loc, time := r.time, device_name := r.device_name,
      official_tag := r.official_tag }

/-- client.py `get_farm_observations`: lines 92-93 build the query params
with `config.start.isoformat()` and `config.stop.isoformat()`, but
`PullFarmObservationsConfig.start` and `.stop` are `str` fields
(configurations.py lines 35-36) and `str` has no `isoformat`, so every
call raises `AttributeError` while building `params`, before any request
is issued.  The session/url setup preceding it has no observable effect,
and the rest of the function body (request, status classification, body
parsing) is unreachable — see `get_farm_observations_response`. -/
def get_farm_observations (config : PullFarmObservationsConfig) :
    Except FetchError ObsFetchResult :=
  .error .attributeError

/-- The response handling of client.py lines 100-116 (status
classification, falsy-body raw-text return, per-item validation) that
`get_farm_observations` would perform if it ever reached the request:
unreachable in the program, kept as documentation of the dead code. -/
def get_farm_observations_response (statusError : Option Nat)
    (body : List RawObservation) (text : String) : Except FetchError ObsFetchResult :=
  match statusError with
  | some s => .error (.rumi (classifyStatus s))
  | none =>
    if body.isEmpty then .ok (.rawText text)
    else
      match body.mapM FarmLocation.parse with
      | none => .error .validation
      | some obs => .ok (.observations obs)

/-- client.py `get_animals_info`: three sequential category fetches
(bulls, cows, calves); the first error status aborts with the classified
error; a falsy category body is simply omitted from the merged roster map,
so three empty bodies yield the empty map, not an error. -/
def client_get_animals_info (bullsStatus cowsStatus calvesStatus : Option Nat)
    (bulls cows calves : List Animal) : Except RumiError AnimalsInfo :=
  match bullsStatus with
  | some s => .error (classifyStatus s)
  | none =>
    match cowsStatus with
    | some s => .error (classifyStatus s)
    | none =>
      match calvesStatus with
      | some s => .error (classifyStatus s)
      | none =>
        .ok ((if bulls.isEmpty then [] else [("bull", bulls)]) ++
             (if cows.isEmpty then [] else [("cow", cows)]) ++
             (if calves.isEmpty then [] else [("calf", calves)]))

/-! ### Handlers (app/actions/handlers.py) -/

/-- Python truthiness of what `client.get_farms` returned. -/
def farmsTruthy : FarmsFetchResult → Bool
  | .farms l => !l.isEmpty
  | .rawText s => !(s == "")

/-- Python truthiness of the observations result the handler checks with
`if observations:` (handlers.py line 166). -/
def obsTruthy : ObsFetchResult → Bool
  | .observations l => !l.isEmpty
  | .rawText s => !(s == "")

/-- The dict returned by `action_auth`; absent keys are `none`. -/
structure AuthResult where
  valid_credentials : Option Bool := none
  status_code : Option Nat := none
  message : Option String := none
  error : Option Bool := none
deriving DecidableEq, Repr

/-- handlers.py `action_auth`, as a function of the outcome of
`client.get_farms`. -/
def action_auth (farmsResult : Except RumiError FarmsFetchResult) : AuthResult :=
  match farmsResult with
  | .ok r =>
    if farmsTruthy r then { valid_credentials := some true }
    else { valid_credentials := some false, message := some "Bad credentials" }
  | .error (.unauthorized s) =>
    { valid_credentials := some false, status_code := some s, message := some "Invalid token" }
  | .error (.notFound s) =>
    { valid_credentials := some false, status_code := some s, message := some "Invalid user_id" }
  | .error (.httpStatus s) => { error := some true, status_code := some s }

/-- handlers.py `get_animals_info`: read the cached roster from the
`"fetch_farm_observations"` namespace; on a falsy cache entry fetch the
roster from the vendor (outcome `fetchRoster`) and cache it (TTL 43200 s,
modelled externally by `expireState`).  A value of the cursor shape at the
cache key cannot occur (the namespaces are disjoint, see the
`state_namespace_separation` theorem); the model refetches in that
unreachable case. -/
def get_animals_info (integration_id : String) (cfg : PullFarmObservationsConfig)
    (fetchRoster : Except RumiError AnimalsInfo) (store : StateStore) :
    Except RumiError (AnimalsInfo × StateStore) :=
  let key : StateKey := ⟨integration_id, "fetch_farm_observations", cfg.farm_id⟩
  match getState store key with
  | some (.roster ai) =>
    if ai.isEmpty then
      match fetchRoster with
      | .error e => .error e
      | .ok ai2 => .ok (ai2, setState store key (.roster ai2))
    else .ok (ai, store)
  | _ =>
    match fetchRoster with
    | .error e => .error e
    | .ok ai2 => .ok (ai2, setState store key (.roster ai2))

/-- configurations.py line 36: the `stop` field's default
`datetime.now(timezone.utc).isoformat()` is evaluated once, when the module
is imported; every config built without an explicit `stop` (as in
`action_pull_observations`) shares that import-time value `importStop`. -/
def mkPullFarmObservationsConfig (importStop : Int) (start : Int)
    (farm_id farm_name user_id token : String) : PullFarmObservationsConfig :=
  { start := start, stop := importStop, locations := "all", farm_id := farm_id,
    farm_name := farm_name, user_id := user_id, token := token }

inductive PullError where
  | rumi (e : RumiError)
  | typeError
deriving DecidableEq, Repr

structure PullOutcome where
  triggered : List PullFarmObservationsConfig
  result : Except PullError Nat
deriving DecidableEq, Repr

/-- handlers.py lines 127-132: window start is the stored cursor when one
exists, else now minus the configured lookback (seconds of `Int` time).
A roster-shaped value at the cursor key cannot occur (disjoint namespaces);
the model falls back to the lookback window in that unreachable case. -/
def resolveStart (now : Int) (lookback_days : Nat) (st : Option StateVal) : Int :=
  match st with
  | some (.cursor t) => t
  | _ => now - 86400 * lookback_days

/-- handlers.py `action_pull_observations`, as a function of the import-time
`stop` default, the cycle time `now`, and the outcome of `client.get_farms`.
Returns the per-farm configs handed to `trigger_action` and the
`farms_triggered` count.  Iterating a raw-text result as farms would raise
`AttributeError` in Python (`farm.id` on a character), modelled as
`typeError`. -/
def action_pull_observations (importStop now : Int) (lookback_days : Nat)
    (user_id token : String) (integration_id : String)
    (farmsResult : Except RumiError FarmsFetchResult) (store : StateStore) :
    PullOutcome :=
  match farmsResult with
  | .error e => ⟨[], .error (.rumi e)⟩
  | .ok r =>
    if farmsTruthy r then
      match r with
      | .rawText _ => ⟨[], .error .typeError⟩
      | .farms farms =>
        let cfgs := farms.map (fun farm =>
          mkPullFarmObservationsConfig importStop
            (resolveStart now lookback_days
              (getState store ⟨integration_id, "pull_observations", farm.id⟩))
            farm.id farm.name user_id token)
        ⟨cfgs, .ok cfgs.length⟩
    else ⟨[], .ok 0⟩

/-- Fuel-driven worker for `generate_batches`; `l.length` fuel always
suffices when `n ≠ 0`. -/
def generate_batches_go (fuel : Nat) (n : Nat) (l : List α) : List (List α) :=
  match fuel with
  | 0 => []
  | fuel + 1 => if l.isEmpty then [] else l.take n :: generate_batches_go fuel n (l.drop n)

/-- Modelled from the spec: `generate_batches` (app/services/utils, not under
src/) partitions a list into fixed-size groups of `n` records, preserving the
original order. -/
def generate_batches (n : Nat) (l : List α) : List (List α) :=
  if n = 0 then [] else generate_batches_go l.length n l

inductive FetchCycleError where
  | fetch (e : FetchError)
  | roster (e : RumiError)
  | typeError
  | keyError
  | dispatch
deriving DecidableEq, Repr

/-- Externally visible effects of one fetch-farm-observations cycle, in
order: batches handed to `send_observations_to_gundi` and cursor-state
writes. -/
inductive Event where
  | sent (batch : List CanonicalObservation)
  | wroteCursor (key : StateKey) (updated_at : Int)
deriving DecidableEq, Repr

/-- handlers.py lines 171-174: dispatch the batches sequentially, stopping at
the first sink failure; on success accumulate each response's length into
`observations_extracted`. -/
def dispatchBatches (sink : List CanonicalObservation → Except Unit (List String)) :
    List (List CanonicalObservation) → List Event × Except Unit Nat
  | [] => ([], .ok 0)
  | b :: rest =>
    match sink b with
    | .error _ => ([], .error ())
    | .ok resp =>
      (.sent b :: (dispatchBatches sink rest).1,
        match (dispatchBatches sink rest).2 with
        | .ok n => .ok (resp.length + n)
        | .error e => .error e)

/-- handlers.py line 177: `max(observations, key=lambda obs: obs.time).time`
(only evaluated on a non-empty list; the `[]` case is unreachable). -/
def maxTime : List FarmLocation → Int
  | [] => 0
  | o :: rest => rest.foldl (fun acc ob => max acc ob.time) o.time

structure FetchOutcome where
  events : List Event
  store : StateStore
  result : Except FetchCycleError Nat
deriving DecidableEq, Repr

/-- handlers.py `action_fetch_farm_observations`, as a function of the
outcomes of the two vendor calls and of the sink.  A truthy raw-text result
would be iterated character by character in Python: `transform` first builds
`rumi_id_map` (possible `KeyError`), then dereferences `.device_name` on a
character (`AttributeError`, modelled as `typeError`); the roster cache write
from `get_animals_info` has already happened at that point. -/
def action_fetch_farm_observations (integration_id : String)
    (cfg : PullFarmObservationsConfig)
    (fetchObs : Except FetchError ObsFetchResult)
    (fetchRoster : Except RumiError AnimalsInfo)
    (sink : List CanonicalObservation → Except Unit (List String))
    (store : StateStore) : FetchOutcome :=
  match fetchObs with
  | .error e => ⟨[], store, .error (.fetch e)⟩
  | .ok r =>
    if obsTruthy r then
      match r with
      | .rawText _ =>
        match get_animals_info integration_id cfg fetchRoster store with
        | .error e => ⟨[], store, .error (.roster e)⟩
        | .ok (animals_info, store1) =>
          match buildRumiIdMap animals_info [] with
          | none => ⟨[], store1, .error .keyError⟩
          | some _ => ⟨[], store1, .error .typeError⟩
      | .observations observations =>
        match get_animals_info integration_id cfg fetchRoster store with
        | .error e => ⟨[], store, .error (.roster e)⟩
        | .ok (animals_info, store1) =>
          match observations.mapM (transform cfg animals_info) with
          | none => ⟨[], store1, .error .keyError⟩
          | some transformed_data =>
            let dr := dispatchBatches sink (generate_batches 200 transformed_data)
            match dr.2 with
            | .error _ => ⟨dr.1, store1, .error .dispatch⟩
            | .ok observations_extracted =>
              let key : StateKey := ⟨integration_id, "pull_observations", cfg.farm_id⟩
              let latest := maxTime observations
              ⟨dr.1 ++ [.wroteCursor key latest],
               setState store1 key (.cursor latest),
               .ok observations_extracted⟩
    else ⟨[], store, .ok 0⟩

/-! ### Concrete fixtures used by witnesses and counterexamples -/

def cfgA : PullFarmObservationsConfig :=
  { start := 0, stop := 0, locations := "all", farm_id := "F1",
    farm_name := "Farm One", user_id := "u1", token := "tk" }

def bullToro : Animal := [("rumi_id", "R1"), ("name", "Toro"), ("breed", "")]

def aiA : AnimalsInfo := [("bull", [bullToro])]

/-- A roster with a record lacking the `rumi_id` key. -/
def aiBad : AnimalsInfo := [("cow", [[("name", "NoId")]])]

def obsMatched : FarmLocation :=
  { location := (1, 2), time := 5, device_name := "R1", official_tag := "TAG1" }

def obsUnmatched : FarmLocation :=
  { location := (3, 4), time := 9, device_name := "DEV9", official_tag := "TAG7" }

/-- The `rumi_id_map` built from `aiA`. -/
def rmapA : RMap :=
  [("R1", [("type", "bull"), ("rumi_id", "R1"), ("name", "Toro"), ("breed", "")])]

/-- The merged roster entry for `bullToro`. -/
def infoToro : Dict :=
  [("type", "bull"), ("rumi_id", "R1"), ("name", "Toro"), ("breed", "")]

/-- A sink accepting every record of every batch. -/
def sinkOk : List CanonicalObservation → Except Unit (List String) :=
  fun b => .ok (b.map fun _ => "accepted")

/-- The per-batch response of `sinkOk`. -/
def respOk : List CanonicalObservation → List String :=
  fun b => b.map fun _ => "accepted"

/-- `transform cfgA aiA obsMatched`. -/
def canA : CanonicalObservation :=
  { source_name := "Toro (R1)", source := "TAG1", type := "tracking-device",
    subject_type := "rumi-bull", recorded_at := 5, lat := 1, lon := 2,
    additional := [("farm_id", "F1"), ("farm_name", "Farm One"),
                   ("subject_name", "Toro (R1)"), ("type", "bull"),
                   ("rumi_id", "R1"), ("name", "Toro")] }

/-- `transform cfgA aiA obsUnmatched`. -/
def canB : CanonicalObservation :=
  { source_name := "TAG7 (DEV9)", source := "TAG7", type := "tracking-device",
    subject_type := "unassigned", recorded_at := 9, lat := 3, lon := 4,
    additional := [("farm_id", "F1"), ("farm_name", "Farm One"),
                   ("subject_name", "TAG7 (DEV9)")] }

/-! ### Iterated sync cycles (for the cursor-monotonicity claim) -/

def cursorKeyOf (integ : String) (cfg : PullFarmObservationsConfig) : StateKey :=
  ⟨integ, "pull_observations", cfg.farm_id⟩

def cacheKeyOf (integ : String) (cfg : PullFarmObservationsConfig) : StateKey :=
  ⟨integ, "fetch_farm_observations", cfg.farm_id⟩

/-- The stored cursor value for a farm, when one exists. -/
def getCursor (integ : String) (cfg : PullFarmObservationsConfig)
    (store : StateStore) : Option Int :=
  match getState store (cursorKeyOf integ cfg) with
  | some (.cursor t) => some t
  | _ => none

/-- One sync cycle in which the vendor returned `cycle.1`, the roster fetch
returned `cycle.2`, and the sink accepted every record. -/
def runCycle (integ : String) (cfg : PullFarmObservationsConfig)
    (cycle : List FarmLocation × AnimalsInfo) (store : StateStore) : FetchOutcome :=
  action_fetch_farm_observations integ cfg (.ok (.observations cycle.1))
    (.ok cycle.2) sinkOk store

/-- N consecutive cycles, threading the state store. -/
def runCycles (integ : String) (cfg : PullFarmObservationsConfig) :
    List (List FarmLocation × AnimalsInfo) → StateStore → StateStore
  | [], store => store
  | cycle :: rest, store =>
    runCycles integ cfg rest (runCycle integ cfg cycle store).store

/-- Every record of every category of the roster carries `rumi_id`. -/
def rosterOKb (ai : AnimalsInfo) : Bool :=
  ai.all fun p => p.2.all fun a => (dlookup a "rumi_id").isSome

/-- Any roster cached for this farm is well-keyed. -/
def cacheOKb (integ : String) (cfg : PullFarmObservationsConfig)
    (store : StateStore) : Bool :=
  match getState store (cacheKeyOf integ cfg) with
  | some (.roster ai) => rosterOKb ai
  | _ => true

def allRostersOKb (cycles : List (List FarmLocation × AnimalsInfo)) : Bool :=
  cycles.all fun c => rosterOKb c.2

/-- The cursor value after one cycle whose observations were `obs`. -/
def nextCursor (c : Option Int) (obs : List FarmLocation) : Option Int :=
  if obs.isEmpty then c else some (maxTime obs)

/-- The cursor value after a sequence of cycles. -/
def cursorSpec (c : Option Int) (obss : List (List FarmLocation)) : Option Int :=
  obss.foldl nextCursor c

/-- The vendor window contract: in every cycle, each observation's timestamp
is at or after the cursor stored when that cycle starts (the window start the
vendor was queried with). -/
def windowRespectingSpecb : Option Int → List (List FarmLocation) → Bool
  | _, [] => true
  | c, obs :: rest =>
    (match c with
     | some t => obs.all fun o => decide (t ≤ o.time)
     | none => true)
    && windowRespectingSpecb (nextCursor c obs) rest

/-! ### Helper lemmas -/

theorem getState_setState (s : StateStore) (k : StateKey) (v : StateVal) (k' : StateKey) :
    getState (setState s k v) k' = if k = k' then some v else getState s k' := by
  induction s with
  | nil => simp [getState, setState]
  | cons kv rest ih =>
    obtain ⟨k₀, v₀⟩ := kv
    by_cases h₀ : k₀ = k
    · subst h₀
      by_cases h₁ : k₀ = k'
      · subst h₁; simp [getState, setState]
      · simp [getState, setState, h₁]
    · by_cases h₁ : k₀ = k'
      · subst h₁
        have : k ≠ k₀ := fun h => h₀ h.symm
        simp [getState, setState, h₀, this]
      · simp [getState, setState, h₀, h₁, ih]

theorem getState_expireState_ne (s : StateStore) (k k' : StateKey) (h : k ≠ k') :
    getState (expireState s k) k' = getState s k' := by
  induction s with
  | nil => simp [getState, expireState]
  | cons kv rest ih =>
    obtain ⟨k₀, v₀⟩ := kv
    by_cases h₀ : k₀ = k
    · subst h₀
      have : k₀ ≠ k' := fun hh => h hh
      simp [expireState, getState, this] at ih ⊢
      simpa [expireState] using ih
    · by_cases h₁ : k₀ = k'
      · subst h₁; simp [expireState, getState, h₀]
      · simp [expireState, getState, h₀, h₁] at ih ⊢
        simpa [expireState] using ih

theorem insertCategory_eq_none_iff (animal_type : String) (animals : List Animal) (m : RMap) :
    insertCategory animal_type animals m = none ↔ ∃ a ∈ animals, dlookup a "rumi_id" = none := by
  induction animals generalizing m with
  | nil => simp [insertCategory]
  | cons a rest ih =>
    cases h : dlookup a "rumi_id" with
    | none => simp [insertCategory, h]
    | some rid => simp [insertCategory, h, ih]

theorem buildRumiIdMap_eq_none_iff (ai : AnimalsInfo) (m : RMap) :
    buildRumiIdMap ai m = none ↔ ∃ p ∈ ai, ∃ a ∈ p.2, dlookup a "rumi_id" = none := by
  induction ai generalizing m with
  | nil => simp [buildRumiIdMap]
  | cons p rest ih =>
    obtain ⟨animal_type, animals⟩ := p
    cases h : insertCategory animal_type animals m with
    | none =>
      simp only [buildRumiIdMap, h]
      constructor
      · intro _
        obtain ⟨a, ha, hnone⟩ := (insertCategory_eq_none_iff animal_type animals m).mp h
        exact ⟨(animal_type, animals), List.mem_cons_self _ _, a, ha, hnone⟩
      · intro _; trivial
    | some m2 =>
      have hno : ¬ ∃ a ∈ animals, dlookup a "rumi_id" = none := by
        rw [← insertCategory_eq_none_iff animal_type animals m, h]; simp
      simp only [buildRumiIdMap, h, ih]
      constructor
      · rintro ⟨q, hq, a, ha, hnone⟩
        exact ⟨q, List.mem_cons_of_mem _ hq, a, ha, hnone⟩
      · rintro ⟨q, hq, a, ha, hnone⟩
        rcases List.mem_cons.mp hq with hq | hq
        · exact absurd ⟨a, by simpa [hq] using ha, hnone⟩ hno
        · exact ⟨q, hq, a, ha, hnone⟩

theorem transform_eq_none_iff (farm : PullFarmObservationsConfig) (ai : AnimalsInfo)
    (obs : FarmLocation) : transform farm ai obs = none ↔ buildRumiIdMap ai [] = none := by
  unfold transform
  cases h : buildRumiIdMap ai [] <;> simp

theorem get_animals_info_store (integ : String) (cfg : PullFarmObservationsConfig)
    (fetch : Except RumiError AnimalsInfo) (store : StateStore) (ai : AnimalsInfo)
    (store' : StateStore) (h : get_animals_info integ cfg fetch store = .ok (ai, store')) :
    store' = store ∨
      store' = setState store ⟨integ, "fetch_farm_observations", cfg.farm_id⟩ (.roster ai) := by
  simp only [get_animals_info] at h
  cases hg : getState store ⟨integ, "fetch_farm_observations", cfg.farm_id⟩ with
  | none =>
    rw [hg] at h
    cases fetch with
    | error e => simp at h
    | ok ai2 => simp at h; obtain ⟨h1, h2⟩ := h; subst h1; exact Or.inr h2.symm
  | some v =>
    rw [hg] at h
    cases v with
    | roster ai0 =>
      by_cases he : ai0.isEmpty
      · simp [he] at h
        cases fetch with
        | error e => simp at h
        | ok ai2 => simp at h; obtain ⟨h1, h2⟩ := h; subst h1; exact Or.inr h2.symm
      · simp [he] at h
        exact Or.inl h.2.symm
    | cursor t =>
      cases fetch with
      | error e => simp at h
      | ok ai2 => simp at h; obtain ⟨h1, h2⟩ := h; subst h1; exact Or.inr h2.symm

theorem obsTruthy_observations {l : List FarmLocation} (h : l ≠ []) :
    obsTruthy (.observations l) = true := by
  simp [obsTruthy, h]

theorem obsTruthy_rawText {s : String} (h : s ≠ "") :
    obsTruthy (.rawText s) = true := by
  simp [obsTruthy, h]

/-! Per-branch evaluation lemmas for `action_fetch_farm_observations`. -/

theorem action_fetch_eval_fetch_error (integ : String) (cfg : PullFarmObservationsConfig)
    (e : FetchError) (fetchRoster : Except RumiError AnimalsInfo)
    (sink : List CanonicalObservation → Except Unit (List String)) (store : StateStore) :
    action_fetch_farm_observations integ cfg (.error e) fetchRoster sink store =
      ⟨[], store, .error (.fetch e)⟩ := rfl

theorem action_fetch_eval_empty (integ : String) (cfg : PullFarmObservationsConfig)
    (fetchRoster : Except RumiError AnimalsInfo)
    (sink : List CanonicalObservation → Except Unit (List String)) (store : StateStore) :
    action_fetch_farm_observations integ cfg (.ok (.observations [])) fetchRoster sink store =
      ⟨[], store, .ok 0⟩ := rfl

theorem action_fetch_eval_emptyText (integ : String) (cfg : PullFarmObservationsConfig)
    (fetchRoster : Except RumiError AnimalsInfo)
    (sink : List CanonicalObservation → Except Unit (List String)) (store : StateStore) :
    action_fetch_farm_observations integ cfg (.ok (.rawText "")) fetchRoster sink store =
      ⟨[], store, .ok 0⟩ := rfl

theorem action_fetch_eval_roster_error (integ : String) (cfg : PullFarmObservationsConfig)
    (r : ObsFetchResult) (e : RumiError) (fetchRoster : Except RumiError AnimalsInfo)
    (sink : List CanonicalObservation → Except Unit (List String)) (store : StateStore)
    (ht : obsTruthy r = true)
    (hga : get_animals_info integ cfg fetchRoster store = .error e) :
    action_fetch_farm_observations integ cfg (.ok r) fetchRoster sink store =
      ⟨[], store, .error (.roster e)⟩ := by
  cases r with
  | rawText s =>
    simp only [action_fetch_farm_observations, ht, if_true, eq_self_iff_true, hga]
  | observations l =>
    simp only [action_fetch_farm_observations, ht, if_true, eq_self_iff_true, hga]

theorem action_fetch_eval_rawText_keyError (integ : String) (cfg : PullFarmObservationsConfig)
    (s : String) (fetchRoster : Except RumiError AnimalsInfo)
    (sink : List CanonicalObservation → Except Unit (List String)) (store : StateStore)
    (ai : AnimalsInfo) (store1 : StateStore)
    (hs : s ≠ "")
    (hga : get_animals_info integ cfg fetchRoster store = .ok (ai, store1))
    (hb : buildRumiIdMap ai [] = none) :
    action_fetch_farm_observations integ cfg (.ok (.rawText s)) fetchRoster sink store =
      ⟨[], store1, .error .keyError⟩ := by
  simp only [action_fetch_farm_observations, obsTruthy_rawText hs, if_true, eq_self_iff_true,
    hga, hb]

theorem action_fetch_eval_rawText_typeError (integ : String) (cfg : PullFarmObservationsConfig)
    (s : String) (fetchRoster : Except RumiError AnimalsInfo)
    (sink : List CanonicalObservation → Except Unit (List String)) (store : StateStore)
    (ai : AnimalsInfo) (store1 : StateStore) (m : RMap)
    (hs : s ≠ "")
    (hga : get_animals_info integ cfg fetchRoster store = .ok (ai, store1))
    (hb : buildRumiIdMap ai [] = some m) :
    action_fetch_farm_observations integ cfg (.ok (.rawText s)) fetchRoster sink store =
      ⟨[], store1, .error .typeError⟩ := by
  simp only [action_fetch_farm_observations, obsTruthy_rawText hs, if_true, eq_self_iff_true,
    hga, hb]

theorem action_fetch_eval_keyError (integ : String) (cfg : PullFarmObservationsConfig)
    (obs : List FarmLocation) (fetchRoster : Except RumiError AnimalsInfo)
    (sink : List CanonicalObservation → Except Unit (List String)) (store : StateStore)
    (ai : AnimalsInfo) (store1 : StateStore)
    (hobs : obs ≠ [])
    (hga : get_animals_info integ cfg fetchRoster store = .ok (ai, store1))
    (hmt : obs.mapM (transform cfg ai) = none) :
    action_fetch_farm_observations integ cfg (.ok (.observations obs)) fetchRoster sink store =
      ⟨[], store1, .error .keyError⟩ := by
  simp only [action_fetch_farm_observations, obsTruthy_observations hobs, if_true,
    eq_self_iff_true, hga, hmt]

theorem action_fetch_eval_dispatch_error (integ : String) (cfg : PullFarmObservationsConfig)
    (obs : List FarmLocation) (fetchRoster : Except RumiError AnimalsInfo)
    (sink : List CanonicalObservation → Except Unit (List String)) (store : StateStore)
    (ai : AnimalsInfo) (store1 : StateStore) (td : List CanonicalObservation)
    (hobs : obs ≠ [])
    (hga : get_animals_info integ cfg fetchRoster store = .ok (ai, store1))
    (hmt : obs.mapM (transform cfg ai) = some td)
    (hd : (dispatchBatches sink (generate_batches 200 td)).2 = .error ()) :
    action_fetch_farm_observations integ cfg (.ok (.observations obs)) fetchRoster sink store =
      ⟨(dispatchBatches sink (generate_batches 200 td)).1, store1, .error .dispatch⟩ := by
  simp only [action_fetch_farm_observations, obsTruthy_observations hobs, if_true,
    eq_self_iff_true, hga, hmt, hd]

theorem action_fetch_eval_ok (integ : String) (cfg : PullFarmObservationsConfig)
    (obs : List FarmLocation) (fetchRoster : Except RumiError AnimalsInfo)
    (sink : List CanonicalObservation → Except Unit (List String)) (store : StateStore)
    (ai : AnimalsInfo) (store1 : StateStore) (td : List CanonicalObservation) (n : Nat)
    (hobs : obs ≠ [])
    (hga : get_animals_info integ cfg fetchRoster store = .ok (ai, store1))
    (hmt : obs.mapM (transform cfg ai) = some td)
    (hd : (dispatchBatches sink (generate_batches 200 td)).2 = .ok n) :
    action_fetch_farm_observations integ cfg (.ok (.observations obs)) fetchRoster sink store =
      ⟨(dispatchBatches sink (generate_batches 200 td)).1 ++
         [.wroteCursor ⟨integ, "pull_observations", cfg.farm_id⟩ (maxTime obs)],
       setState store1 ⟨integ, "pull_observations", cfg.farm_id⟩ (.cursor (maxTime obs)),
       .ok n⟩ := by
  simp only [action_fetch_farm_observations, obsTruthy_observations hobs, if_true,
    eq_self_iff_true, hga, hmt, hd]

/-- The final state store of one fetch-farm-observations cycle is the input
store, possibly with the roster cache entry written, possibly with the
cursor entry written on top. -/
theorem action_fetch_store_shape (integ : String) (cfg : PullFarmObservationsConfig)
    (fetchObs : Except FetchError ObsFetchResult) (fetchRoster : Except RumiError AnimalsInfo)
    (sink : List CanonicalObservation → Except Unit (List String)) (store : StateStore) :
    (action_fetch_farm_observations integ cfg fetchObs fetchRoster sink store).store = store
  ∨ (∃ ai, (action_fetch_farm_observations integ cfg fetchObs fetchRoster sink store).store =
      setState store ⟨integ, "fetch_farm_observations", cfg.farm_id⟩ (.roster ai))
  ∨ (∃ t, (action_fetch_farm_observations integ cfg fetchObs fetchRoster sink store).store =
      setState store ⟨integ, "pull_observations", cfg.farm_id⟩ (.cursor t))
  ∨ (∃ ai t, (action_fetch_farm_observations integ cfg fetchObs fetchRoster sink store).store =
      setState (setState store ⟨integ, "fetch_farm_observations", cfg.farm_id⟩ (.roster ai))
        ⟨integ, "pull_observations", cfg.farm_id⟩ (.cursor t)) := by
  cases fetchObs with
  | error e => rw [action_fetch_eval_fetch_error]; exact Or.inl rfl
  | ok r =>
    by_cases ht : obsTruthy r = true
    · cases hga : get_animals_info integ cfg fetchRoster store with
      | error e =>
        rw [action_fetch_eval_roster_error integ cfg r e fetchRoster sink store ht hga]
        exact Or.inl rfl
      | ok p =>
        obtain ⟨ai, store1⟩ := p
        have hs1 := get_animals_info_store integ cfg fetchRoster store ai store1 hga
        have hshape : ∀ st : StateStore, st = store1 →
            (st = store ∨ ∃ ai2, st = setState store
              ⟨integ, "fetch_farm_observations", cfg.farm_id⟩ (.roster ai2)) := by
          intro st hst
          rcases hs1 with hs1 | hs1
          · exact Or.inl (hst.trans hs1)
          · exact Or.inr ⟨ai, hst.trans hs1⟩
        cases r with
        | rawText s =>
          have hs : s ≠ "" := by
            intro hempty; subst hempty; simp [obsTruthy] at ht
          cases hb : buildRumiIdMap ai [] with
          | none =>
            rw [action_fetch_eval_rawText_keyError integ cfg s fetchRoster sink store ai store1 hs hga hb]
            rcases hshape store1 rfl with h | ⟨ai2, h⟩
            · exact Or.inl h
            · exact Or.inr (Or.inl ⟨ai2, h⟩)
          | some m =>
            rw [action_fetch_eval_rawText_typeError integ cfg s fetchRoster sink store ai store1 m hs hga hb]
            rcases hshape store1 rfl with h | ⟨ai2, h⟩
            · exact Or.inl h
            · exact Or.inr (Or.inl ⟨ai2, h⟩)
        | observations obs =>
          have hobs : obs ≠ [] := by
            intro hempty; subst hempty; simp [obsTruthy] at ht
          cases hmt : obs.mapM (transform cfg ai) with
          | none =>
            rw [action_fetch_eval_keyError integ cfg obs fetchRoster sink store ai store1 hobs hga hmt]
            rcases hshape store1 rfl with h | ⟨ai2, h⟩
            · exact Or.inl h
            · exact Or.inr (Or.inl ⟨ai2, h⟩)
          | some td =>
            cases hd : (dispatchBatches sink (generate_batches 200 td)).2 with
            | error u =>
              cases u
              rw [action_fetch_eval_dispatch_error integ cfg obs fetchRoster sink store ai store1 td hobs hga hmt hd]
              rcases hshape store1 rfl with h | ⟨ai2, h⟩
              · exact Or.inl h
              · exact Or.inr (Or.inl ⟨ai2, h⟩)
            | ok n =>
              rw [action_fetch_eval_ok integ cfg obs fetchRoster sink store ai store1 td n hobs hga hmt hd]
              rcases hs1 with hs1 | hs1
              · subst hs1
                exact Or.inr (Or.inr (Or.inl ⟨maxTime obs, rfl⟩))
              · subst hs1
                exact Or.inr (Or.inr (Or.inr ⟨ai, maxTime obs, rfl⟩))
    · cases r with
      | rawText s =>
        have hs : s = "" := by
          by_contra hne
          exact ht (obsTruthy_rawText hne)
        subst hs
        rw [action_fetch_eval_emptyText]
        exact Or.inl rfl
      | observations obs =>
        have hobs : obs = [] := by
          by_contra hne
          exact ht (obsTruthy_observations hne)
        subst hobs
        rw [action_fetch_eval_empty]
        exact Or.inl rfl

theorem dispatchBatches_events_sent
    (sink : List CanonicalObservation → Except Unit (List String))
    (batches : List (List CanonicalObservation)) :
    ∀ e ∈ (dispatchBatches sink batches).1, ∃ b, e = .sent b := by
  induction batches with
  | nil => simp [dispatchBatches]
  | cons b rest ih =>
    cases hs : sink b with
    | error u => simp [dispatchBatches, hs]
    | ok resp =>
      intro e he
      simp only [dispatchBatches, hs] at he
      rcases List.mem_cons.mp he with rfl | he
      · exact ⟨b, rfl⟩
      · exact ih e he

theorem foldl_max_time (rest : List FarmLocation) (init : Int) :
    (init ≤ rest.foldl (fun acc ob => max acc ob.time) init)
  ∧ (∀ o ∈ rest, o.time ≤ rest.foldl (fun acc ob => max acc ob.time) init)
  ∧ (rest.foldl (fun acc ob => max acc ob.time) init = init
     ∨ ∃ o ∈ rest, rest.foldl (fun acc ob => max acc ob.time) init = o.time) := by
  induction rest generalizing init with
  | nil => simp
  | cons o rest ih =>
    obtain ⟨h1, h2, h3⟩ := ih (max init o.time)
    simp only [List.foldl_cons]
    refine ⟨le_trans (le_max_left _ _) h1, ?_, ?_⟩
    · intro o' ho'
      rcases List.mem_cons.mp ho' with rfl | ho'
      · exact le_trans (le_max_right _ _) h1
      · exact h2 o' ho'
    · rcases h3 with h3 | ⟨o', ho', h3⟩
      · rcases max_choice init o.time with hm | hm
        · exact Or.inl (by rw [h3, hm])
        · exact Or.inr ⟨o, List.mem_cons_self _ _, by rw [h3, hm]⟩
      · exact Or.inr ⟨o', List.mem_cons_of_mem _ ho', h3⟩

theorem maxTime_spec (l : List FarmLocation) (h : l ≠ []) :
    (∀ o ∈ l, o.time ≤ maxTime l) ∧ ∃ o ∈ l, o.time = maxTime l := by
  cases l with
  | nil => exact absurd rfl h
  | cons o rest =>
    obtain ⟨h1, h2, h3⟩ := foldl_max_time rest o.time
    constructor
    · intro o' ho'
      rcases List.mem_cons.mp ho' with rfl | ho'
      · exact h1
      · exact h2 o' ho'
    · rcases h3 with h3 | ⟨o', ho', h3⟩
      · exact ⟨o, List.mem_cons_self _ _, h3.symm⟩
      · exact ⟨o', List.mem_cons_of_mem _ ho', h3.symm⟩

theorem cacheKey_ne_cursorKey (integ farm : String) :
    (⟨integ, "fetch_farm_observations", farm⟩ : StateKey) ≠
      ⟨integ, "pull_observations", farm⟩ := by
  simp

theorem generate_batches_eq_nil (n : Nat) : generate_batches n ([] : List α) = [] := by
  by_cases hn : n = 0 <;> simp [generate_batches, generate_batches_go, hn]

theorem generate_batches_go_congr {n : Nat} (hn : n ≠ 0) :
    ∀ (fuel1 fuel2 : Nat) (l : List α), l.length ≤ fuel1 → l.length ≤ fuel2 →
      generate_batches_go fuel1 n l = generate_batches_go fuel2 n l := by
  intro fuel1
  induction fuel1 with
  | zero =>
    intro fuel2 l h1 _
    have hl : l = [] := List.eq_nil_of_length_eq_zero (Nat.le_zero.mp h1)
    subst hl
    cases fuel2 <;> simp [generate_batches_go]
  | succ f ih =>
    intro fuel2 l h1 h2
    cases fuel2 with
    | zero =>
      have hl : l = [] := List.eq_nil_of_length_eq_zero (Nat.le_zero.mp h2)
      subst hl
      simp [generate_batches_go]
    | succ f2 =>
      by_cases hl : l.isEmpty
      · simp [generate_batches_go, hl]
      · simp only [generate_batches_go, hl, if_false, Bool.false_eq_true]
        congr 1
        have hlen : l.length ≠ 0 := by
          intro h0
          exact hl (by simpa [List.isEmpty_iff_length_eq_zero] using h0)
        apply ih
        · simp only [List.length_drop]; omega
        · simp only [List.length_drop]; omega

theorem generate_batches_cons {n : Nat} (hn : n ≠ 0) {l : List α} (hl : l ≠ []) :
    generate_batches n l = l.take n :: generate_batches n (l.drop n) := by
  unfold generate_batches
  rw [if_neg hn, if_neg hn]
  cases l with
  | nil => exact absurd rfl hl
  | cons a l2 =>
    have : (a :: l2).length = l2.length + 1 := rfl
    simp only [generate_batches_go, this, List.isEmpty_cons, if_false, Bool.false_eq_true]
    congr 1
    apply generate_batches_go_congr hn
    · simp only [List.length_drop, List.length_cons]; omega
    · exact le_rfl

theorem generate_batches_join (n : Nat) (hn : n ≠ 0) (l : List α) :
    (generate_batches n l).flatten = l := by
  suffices h : ∀ (L : Nat) (l : List α), l.length ≤ L → (generate_batches n l).flatten = l from
    h l.length l le_rfl
  intro L
  induction L with
  | zero =>
    intro l hl
    have : l = [] := List.eq_nil_of_length_eq_zero (Nat.le_zero.mp hl)
    subst this
    rw [generate_batches_eq_nil]
    rfl
  | succ L ih =>
    intro l hl
    by_cases hnill : l = []
    · subst hnill; rw [generate_batches_eq_nil]; rfl
    · rw [generate_batches_cons hn hnill, List.flatten_cons,
        ih (l.drop n) (by
          have hlen : l.length ≠ 0 := fun h0 => hnill (List.eq_nil_of_length_eq_zero h0)
          simp only [List.length_drop]
          omega)]
      exact List.take_append_drop n l

theorem generate_batches_sizes (n : Nat) (l : List α) :
    ∀ b ∈ generate_batches n l, b.length ≤ n := by
  by_cases hn : n = 0
  · simp [generate_batches, hn]
  suffices h : ∀ (L : Nat) (l : List α), l.length ≤ L →
      ∀ b ∈ generate_batches n l, b.length ≤ n from h l.length l le_rfl
  intro L
  induction L with
  | zero =>
    intro l hl
    have : l = [] := List.eq_nil_of_length_eq_zero (Nat.le_zero.mp hl)
    subst this
    rw [generate_batches_eq_nil]
    intro b hb
    cases hb
  | succ L ih =>
    intro l hl b hb
    by_cases hnill : l = []
    · subst hnill; rw [generate_batches_eq_nil] at hb; cases hb
    · rw [generate_batches_cons hn hnill] at hb
      rcases List.mem_cons.mp hb with rfl | hb
      · simpa using Nat.min_le_left n l.length
      · exact ih (l.drop n) (by
          have hlen : l.length ≠ 0 := fun h0 => hnill (List.eq_nil_of_length_eq_zero h0)
          simp only [List.length_drop]
          omega) b hb

theorem generate_batches_count (n : Nat) (hn : n ≠ 0) (l : List α) :
    (generate_batches n l).length = (l.length + n - 1) / n := by
  suffices h : ∀ (L : Nat) (l : List α), l.length ≤ L →
      (generate_batches n l).length = (l.length + n - 1) / n from h l.length l le_rfl
  intro L
  induction L with
  | zero =>
    intro l hl
    have : l = [] := List.eq_nil_of_length_eq_zero (Nat.le_zero.mp hl)
    subst this
    rw [generate_batches_eq_nil]
    simp [Nat.div_eq_of_lt (by omega : n - 1 < n)]
  | succ L ih =>
    intro l hl
    by_cases hnill : l = []
    · subst hnill
      rw [generate_batches_eq_nil]
      simp [Nat.div_eq_of_lt (by omega : n - 1 < n)]
    · have hlen : l.length ≠ 0 := fun h0 => hnill (List.eq_nil_of_length_eq_zero h0)
      rw [generate_batches_cons hn hnill, List.length_cons,
        ih (l.drop n) (by simp only [List.length_drop]; omega)]
      simp only [List.length_drop]
      by_cases hle : l.length ≤ n
      · have h1 : l.length - n = 0 := by omega
        rw [h1]
        have h2 : (0 + n - 1) / n = 0 := Nat.div_eq_of_lt (by omega)
        rw [h2]
        have h3 : l.length + n - 1 = (l.length - 1) + 1 * n := by omega
        rw [h3, Nat.add_mul_div_right _ _ (by omega : 0 < n),
          Nat.div_eq_of_lt (by omega : l.length - 1 < n)]
      · have h3 : l.length - n + n - 1 = (l.length - n - 1) + 1 * n := by omega
        have h4 : l.length + n - 1 = (l.length - 1) + 1 * n := by omega
        have h5 : l.length - 1 = (l.length - n - 1) + 1 * n := by omega
        have e1 : (l.length - n + n - 1) / n = (l.length - n - 1) / n + 1 := by
          rw [h3, Nat.add_mul_div_right _ _ (by omega : 0 < n)]
        have e2 : (l.length + n - 1) / n = (l.length - 1) / n + 1 := by
          rw [h4, Nat.add_mul_div_right _ _ (by omega : 0 < n)]
        have e3 : (l.length - 1) / n = (l.length - n - 1) / n + 1 := by
          rw [h5, Nat.add_mul_div_right _ _ (by omega : 0 < n)]
        omega

theorem dispatchBatches_all_ok
    (sink : List CanonicalObservation → Except Unit (List String))
    (resp : List CanonicalObservation → List String) :
    ∀ batches, (∀ b ∈ batches, sink b = .ok (resp b)) →
      dispatchBatches sink batches =
        (batches.map Event.sent, .ok ((batches.map fun b => (resp b).length).sum)) := by
  intro batches
  induction batches with
  | nil => intro _; simp [dispatchBatches]
  | cons b rest ih =>
    intro h
    have ihr := ih (fun x hx => h x (List.mem_cons_of_mem _ hx))
    have hb := h b (List.mem_cons_self _ _)
    simp [dispatchBatches, hb, ihr]

theorem option_eq_some_getD {α : Type} (o : Option α) (d : α) (h : o.isSome = true) :
    o = some (o.getD d) := by
  cases o with
  | none => cases h
  | some a => rfl

theorem stripSign_cases (l : List Char) :
    (stripSign l).2 = l ∨ ∃ c, (c = '+' ∨ c = '-') ∧ l = c :: (stripSign l).2 := by
  cases l with
  | nil => exact Or.inl rfl
  | cons c r =>
    by_cases hm : c = '-'
    · subst hm
      exact Or.inr ⟨'-', Or.inr rfl, by simp [stripSign]⟩
    · by_cases hp : c = '+'
      · subst hp
        exact Or.inr ⟨'+', Or.inl rfl, by simp [stripSign, hm]⟩
      · exact Or.inl (by simp [stripSign, hm, hp])

theorem parseExpPart_chars (l : List Char) (e : Int) (h : parseExpPart l = some e) :
    ∀ c ∈ l, c = 'e' ∨ c = 'E' ∨ c = '+' ∨ c = '-' ∨ c.isDigit = true := by
  cases l with
  | nil => intro c hc; cases hc
  | cons c0 r =>
    simp only [parseExpPart] at h
    by_cases he : c0 = 'e' ∨ c0 = 'E'
    · rw [if_pos he] at h
      by_cases hd : (!(stripSign r).2.isEmpty && (stripSign r).2.all Char.isDigit) = true
      · have hdig : ∀ c ∈ (stripSign r).2, c.isDigit = true := by
          have := (Bool.and_eq_true _ _).mp hd
          exact fun c hc => List.all_eq_true.mp this.2 c hc
        intro c hc
        rcases List.mem_cons.mp hc with rfl | hc
        · rcases he with he | he
          · exact Or.inl he
          · exact Or.inr (Or.inl he)
        · rcases stripSign_cases r with hr | ⟨c1, hc1, hr⟩
          · exact Or.inr (Or.inr (Or.inr (Or.inr (hdig c (by rw [hr]; exact hc)))))
          · rw [hr] at hc
            rcases List.mem_cons.mp hc with rfl | hc
            · rcases hc1 with hc1 | hc1
              · exact Or.inr (Or.inr (Or.inl hc1))
              · exact Or.inr (Or.inr (Or.inr (Or.inl hc1)))
            · exact Or.inr (Or.inr (Or.inr (Or.inr (hdig c hc))))
      · rw [if_neg hd] at h
        cases h
    · rw [if_neg he] at h
      cases h

theorem parseFloat_chars (l : List Char) (q : ℚ) (h : parseFloat l = some q) :
    ∀ c ∈ l, c ≠ ':' := by
  have hdig : ∀ c : Char, c.isDigit = true → c ≠ ':' := by
    intro c hc hcol
    subst hcol
    exact absurd hc (by decide)
  have hexp : ∀ (r : List Char) (e : Int), parseExpPart r = some e → ∀ c ∈ r, c ≠ ':' := by
    intro r e hr c hc
    rcases parseExpPart_chars r e hr c hc with h1 | h1 | h1 | h1 | h1 <;>
      first
      | (subst h1; decide)
      | exact hdig c h1
  have hmain : ∀ c ∈ (stripSign l).2, c ≠ ':' := by
    simp only [parseFloat] at h
    by_cases hhead :
        (List.dropWhile Char.isDigit (stripSign l).2).head? = some '.'
    · rw [if_pos hhead] at h
      obtain ⟨r1tl, hr1⟩ := List.head?_eq_some_iff.mp hhead
      by_cases hempty :
          ((List.takeWhile Char.isDigit (stripSign l).2).isEmpty &&
            (List.takeWhile Char.isDigit (List.dropWhile Char.isDigit (stripSign l).2).tail).isEmpty) = true
      · rw [if_pos hempty] at h
        cases h
      · rw [if_neg hempty] at h
        obtain ⟨e, he, _⟩ := Option.map_eq_some'.mp h
        intro c hc
        have hsplit := List.takeWhile_append_dropWhile (p := Char.isDigit)
          (l := (stripSign l).2)
        rw [← hsplit] at hc
        rcases List.mem_append.mp hc with hc | hc
        · exact hdig c (List.mem_takeWhile_imp hc)
        · rw [hr1] at hc
          rcases List.mem_cons.mp hc with rfl | hc
          · decide
          · rw [hr1] at he
            simp only [List.tail_cons] at he
            have hsplit2 := List.takeWhile_append_dropWhile (p := Char.isDigit) (l := r1tl)
            rw [← hsplit2] at hc
            rcases List.mem_append.mp hc with hc | hc
            · exact hdig c (List.mem_takeWhile_imp hc)
            · exact hexp _ e he c hc
    · rw [if_neg hhead] at h
      by_cases hempty : (List.takeWhile Char.isDigit (stripSign l).2).isEmpty = true
      · rw [if_pos hempty] at h
        cases h
      · rw [if_neg hempty] at h
        obtain ⟨e, he, _⟩ := Option.map_eq_some'.mp h
        intro c hc
        have hsplit := List.takeWhile_append_dropWhile (p := Char.isDigit)
          (l := (stripSign l).2)
        rw [← hsplit] at hc
        rcases List.mem_append.mp hc with hc | hc
        · exact hdig c (List.mem_takeWhile_imp hc)
        · exact hexp _ e he c hc
  rcases stripSign_cases l with hl | ⟨c0, hc0, hl⟩
  · intro c hc
    exact hmain c (by rw [hl]; exact hc)
  · intro c hc
    rw [hl] at hc
    rcases List.mem_cons.mp hc with rfl | hc
    · rcases hc0 with hc0 | hc0 <;> (subst hc0; decide)
    · exact hmain c hc

theorem splitColons_no_sep : ∀ l : List Char, ¬ ([':', ':'] <:+: l) → splitColons l = [l]
  | [], _ => rfl
  | [c], _ => rfl
  | c :: c2 :: rest, h => by
    have hcc : ¬ (c = ':' ∧ c2 = ':') := by
      rintro ⟨rfl, rfl⟩
      exact h ⟨[], rest, rfl⟩
    have htail : ¬ ([':', ':'] <:+: c2 :: rest) := by
      intro ⟨s, t, hst⟩
      exact h ⟨c :: s, t, by rw [← hst]; rfl⟩
    simp only [splitColons, if_neg hcc, splitColons_no_sep (c2 :: rest) htail, consHead]

theorem colon_not_mem_no_sep {l : List Char} (h : ':' ∉ l) : ¬ ([':', ':'] <:+: l) := by
  intro hinf
  exact h (hinf.subset (List.mem_cons_self _ _))

theorem splitColons_append : ∀ (l₁ l₂ : List Char), ':' ∉ l₁ →
    splitColons (l₁ ++ ':' :: ':' :: l₂) = l₁ :: splitColons l₂
  | [], l₂, _ => by simp [splitColons]
  | [c], l₂, h₁ => by
    have hc : c ≠ ':' := fun hcc => h₁ (hcc ▸ List.mem_cons_self _ _)
    simp [splitColons, consHead, hc]
  | c :: c2 :: l₁, l₂, h₁ => by
    have hc : c ≠ ':' := fun hcc => h₁ (hcc ▸ List.mem_cons_self _ _)
    have hcc : ¬ (c = ':' ∧ c2 = ':') := fun hp => hc hp.1
    have hx : splitColons (c2 :: (l₁ ++ ':' :: ':' :: l₂)) = (c2 :: l₁) :: splitColons l₂ := by
      rw [← List.cons_append]
      exact splitColons_append (c2 :: l₁) l₂ (fun hmem => h₁ (List.mem_cons_of_mem _ hmem))
    simp only [List.cons_append, List.append_eq, splitColons, if_neg hcc, hx, consHead]

/-! ### Claims -/

/-- Claim C7 counterexample: an empty vendor farm list (JSON body `[]`,
serialized as the raw text "[]") makes `get_farms` return the truthy raw
text (client.py line 78), so `action_auth` returns valid credentials —
not the Bad-credentials result the claim describes for an empty farm
list. -/
theorem empty_farm_list_not_bad_credentials :
    get_farms none [] "[]" = .ok (.rawText "[]")
  ∧ action_auth (get_farms none [] "[]") = { valid_credentials := some true } :=
  ⟨rfl, rfl⟩

/-- Claim C7 (amended): `action_auth` returns the structured results the
claim lists for 401 (invalid token), 404 (invalid user id), any other HTTP
status error (status echoed), and a non-empty farm list (valid); but an
empty vendor farm list does not yield Bad credentials: it arrives as the
truthy raw text "[]", so `action_auth` returns valid credentials true.
The Bad-credentials result is produced only for a falsy `get_farms`
result, which the real client never returns for a well-formed response. -/
theorem action_auth_behavior :
    (∀ body text, action_auth (get_farms (some 401) body text) =
      { valid_credentials := some false, status_code := some 401,
        message := some "Invalid token" })
  ∧ (∀ body text, action_auth (get_farms (some 404) body text) =
      { valid_credentials := some false, status_code := some 404,
        message := some "Invalid user_id" })
  ∧ (∀ body text s, s ≠ 401 → s ≠ 404 → action_auth (get_farms (some s) body text) =
      { error := some true, status_code := some s })
  ∧ (∀ body text, body ≠ [] → action_auth (get_farms none body text) =
      { valid_credentials := some true })
  ∧ (∀ text, text ≠ "" → action_auth (get_farms none [] text) =
      { valid_credentials := some true })
  ∧ (∀ r, farmsTruthy r = false → action_auth (.ok r) =
      { valid_credentials := some false, message := some "Bad credentials" }) := by
  refine ⟨?_, ?_, ?_, ?_, ?_, ?_⟩
  · intro body text; rfl
  · intro body text; rfl
  · intro body text s h1 h2
    simp [get_farms, classifyStatus, h1, h2, action_auth]
  · intro body text h
    simp [get_farms, action_auth, farmsTruthy, h]
  · intro text h
    simp [get_farms, action_auth, farmsTruthy, h]
  · intro r h
    simp [action_auth, h]

/-- Claim C7 witness: concrete evaluations for the hypothesis-bearing
cases, including the empty farm list arriving as "[]" and yielding valid
credentials, and the Bad-credentials branch on a falsy result. -/
theorem action_auth_behavior_witness :
    action_auth (get_farms (some 500) [] "server error") =
      { error := some true, status_code := some 500 }
  ∧ action_auth (get_farms none [{ id := "f1", name := "Farm" }] "...") =
      { valid_credentials := some true }
  ∧ action_auth (get_farms none [] "[]") = { valid_credentials := some true }
  ∧ action_auth (.ok (.farms [])) =
      { valid_credentials := some false, message := some "Bad credentials" } :=
  ⟨action_auth_behavior.2.2.1 [] "server error" 500 (by decide) (by decide),
   action_auth_behavior.2.2.2.1 [{ id := "f1", name := "Farm" }] "..." (by simp),
   action_auth_behavior.2.2.2.2.1 "[]" (by decide),
   action_auth_behavior.2.2.2.2.2 (.farms []) rfl⟩

/-- Claim C9: `transform` is total only when every animal record of every
category carries the `rumi_id` key: if any record lacks it, the lookup
build fails (Python `KeyError`) for every observation, matching or not;
if all records carry it, `transform` produces a record. -/
theorem transform_requires_rumi_id :
    ∀ (farm : PullFarmObservationsConfig) (ai : AnimalsInfo) (obs : FarmLocation),
      ((∃ p ∈ ai, ∃ a ∈ p.2, dlookup a "rumi_id" = none) → transform farm ai obs = none)
    ∧ ((∀ p ∈ ai, ∀ a ∈ p.2, (dlookup a "rumi_id").isSome) → (transform farm ai obs).isSome) := by
  intro farm ai obs
  constructor
  · intro h
    rw [transform_eq_none_iff, buildRumiIdMap_eq_none_iff]
    exact h
  · intro h
    rw [Option.isSome_iff_ne_none]
    intro hnone
    rw [transform_eq_none_iff, buildRumiIdMap_eq_none_iff] at hnone
    obtain ⟨p, hp, a, ha, hnone⟩ := hnone
    have := h p hp a ha
    rw [hnone] at this
    simp at this

/-- Claim C9 witness: a roster with a record missing `rumi_id` makes
`transform` fail even though the observation matches nothing; the well-keyed
roster makes it succeed. -/
theorem transform_requires_rumi_id_witness :
    transform cfgA aiBad obsUnmatched = none
  ∧ (transform cfgA aiA obsUnmatched).isSome :=
  ⟨(transform_requires_rumi_id cfgA aiBad obsUnmatched).1 (by decide),
   (transform_requires_rumi_id cfgA aiA obsUnmatched).2 (by decide)⟩

/-- Claim C5 counterexample: for an unmatched observation the
additional-attributes bag is not limited to farm id and farm name — the
computed source name is attached under `subject_name` even when unmatched
(full concrete run shown). -/
theorem transform_unmatched_attaches_subject_name :
    transform cfgA aiA obsUnmatched = some
      { source_name := "TAG7 (DEV9)", source := "TAG7", type := "tracking-device",
        subject_type := "unassigned", recorded_at := 9, lat := 3, lon := 4,
        additional := [("farm_id", "F1"), ("farm_name", "Farm One"),
                       ("subject_name", "TAG7 (DEV9)")] }
  ∧ dlookup [("farm_id", "F1"), ("farm_name", "Farm One"),
             ("subject_name", "TAG7 (DEV9)")] "subject_name" = some "TAG7 (DEV9)" :=
  ⟨rfl, rfl⟩

/-- Claim C5 (amended): when the observation's device identifier matches a
roster entry, source name is `"<animal name or tag> (<rumi id>)"`, subject
type is `"rumi-<category>"`, and the additional bag is farm id, farm name
and the computed source name (under `subject_name`) followed by all
non-empty fields of the matched record; when unmatched, source name is
`"<tag> (<device id>)"`, subject type is `"unassigned"`, and the additional
bag contains exactly farm id, farm name and the computed source name under
`subject_name` — the source name is attached in both cases, not only when
matched. -/
theorem transform_cases (farm : PullFarmObservationsConfig) (ai : AnimalsInfo)
    (obs : FarmLocation) (rumi_id_map : RMap)
    (hmap : buildRumiIdMap ai [] = some rumi_id_map) :
    (∀ info, rlookup rumi_id_map obs.device_name = some info →
      transform farm ai obs = some {
        source_name := ((dlookup info "name").getD obs.official_tag) ++ " (" ++
          ((dlookup info "rumi_id").getD "None") ++ ")",
        source := obs.official_tag,
        type := "tracking-device",
        subject_type := "rumi-" ++ ((dlookup info "type").getD "None"),
        recorded_at := obs.time,
        lat := obs.location.1,
        lon := obs.location.2,
        additional := dmerge
          [("farm_id", farm.farm_id), ("farm_name", farm.farm_name),
           ("subject_name", ((dlookup info "name").getD obs.official_tag) ++ " (" ++
             ((dlookup info "rumi_id").getD "None") ++ ")")]
          (info.filter (fun kv => kv.2 ≠ "")) })
  ∧ (rlookup rumi_id_map obs.device_name = none →
      transform farm ai obs = some {
        source_name := obs.official_tag ++ " (" ++ obs.device_name ++ ")",
        source := obs.official_tag,
        type := "tracking-device",
        subject_type := "unassigned",
        recorded_at := obs.time,
        lat := obs.location.1,
        lon := obs.location.2,
        additional :=
          [("farm_id", farm.farm_id), ("farm_name", farm.farm_name),
           ("subject_name", obs.official_tag ++ " (" ++ obs.device_name ++ ")")] }) := by
  constructor
  · intro info h
    simp only [transform, hmap, h, Option.getD_some]
  · intro h
    simp only [transform, hmap, h]
    rfl

/-- Claim C5 witness: the matched and unmatched branches evaluated on
concrete inputs. -/
theorem transform_cases_witness :
    transform cfgA aiA obsMatched = some
      { source_name := "Toro (R1)", source := "TAG1", type := "tracking-device",
        subject_type := "rumi-bull", recorded_at := 5, lat := 1, lon := 2,
        additional := [("farm_id", "F1"), ("farm_name", "Farm One"),
                       ("subject_name", "Toro (R1)"), ("type", "bull"),
                       ("rumi_id", "R1"), ("name", "Toro")] }
  ∧ transform cfgA aiA obsUnmatched = some
      { source_name := "TAG7 (DEV9)", source := "TAG7", type := "tracking-device",
        subject_type := "unassigned", recorded_at := 9, lat := 3, lon := 4,
        additional := [("farm_id", "F1"), ("farm_name", "Farm One"),
                       ("subject_name", "TAG7 (DEV9)")] } :=
  ⟨(transform_cases cfgA aiA obsMatched rmapA rfl).1 infoToro rfl,
   (transform_cases cfgA aiA obsUnmatched rmapA rfl).2 rfl⟩

/-- Claim C10: the enrichment cache and the cursor for the same
(integration, farm) live under distinct action-id namespaces
("fetch_farm_observations" for the cached roster, "pull_observations" for
the cursor): a state write or expiry in one namespace never changes the
other; across a whole fetch cycle, cache-namespace keys only ever receive
roster values and cursor-namespace keys only cursor values. -/
theorem state_namespace_separation :
    (∀ (store : StateStore) (k : StateKey) (v : StateVal) (k' : StateKey),
      k.action_id ≠ k'.action_id → getState (setState store k v) k' = getState store k')
  ∧ (∀ (store : StateStore) (k k' : StateKey),
      k.action_id ≠ k'.action_id → getState (expireState store k) k' = getState store k')
  ∧ (∀ (integ : String) (cfg : PullFarmObservationsConfig)
      (fetch : Except RumiError AnimalsInfo) (store : StateStore) (ai : AnimalsInfo)
      (store' : StateStore),
      get_animals_info integ cfg fetch store = .ok (ai, store') →
      ∀ k' : StateKey, k'.action_id ≠ "fetch_farm_observations" →
        getState store' k' = getState store k')
  ∧ (∀ (integ : String) (cfg : PullFarmObservationsConfig)
      (fetchObs : Except FetchError ObsFetchResult)
      (fetchRoster : Except RumiError AnimalsInfo)
      (sink : List CanonicalObservation → Except Unit (List String))
      (store : StateStore) (k' : StateKey),
      k'.action_id = "fetch_farm_observations" →
        getState (action_fetch_farm_observations integ cfg fetchObs fetchRoster sink store).store k' =
          getState store k'
      ∨ ∃ ai, getState
          (action_fetch_farm_observations integ cfg fetchObs fetchRoster sink store).store k' =
          some (.roster ai))
  ∧ (∀ (integ : String) (cfg : PullFarmObservationsConfig)
      (fetchObs : Except FetchError ObsFetchResult)
      (fetchRoster : Except RumiError AnimalsInfo)
      (sink : List CanonicalObservation → Except Unit (List String))
      (store : StateStore) (k' : StateKey),
      k'.action_id = "pull_observations" →
        getState (action_fetch_farm_observations integ cfg fetchObs fetchRoster sink store).store k' =
          getState store k'
      ∨ ∃ t, getState
          (action_fetch_farm_observations integ cfg fetchObs fetchRoster sink store).store k' =
          some (.cursor t)) := by
  refine ⟨?_, ?_, ?_, ?_, ?_⟩
  · intro store k v k' h
    rw [getState_setState, if_neg]
    rintro rfl
    exact h rfl
  · intro store k k' h
    apply getState_expireState_ne
    rintro rfl
    exact h rfl
  · intro integ cfg fetch store ai store' h k' hk'
    rcases get_animals_info_store integ cfg fetch store ai store' h with h1 | h1
    · rw [h1]
    · rw [h1, getState_setState, if_neg]
      rintro rfl
      exact hk' rfl
  · intro integ cfg fetchObs fetchRoster sink store k' hk'
    have hcur : (⟨integ, "pull_observations", cfg.farm_id⟩ : StateKey) ≠ k' := by
      rintro rfl
      simp at hk'
    rcases action_fetch_store_shape integ cfg fetchObs fetchRoster sink store with
      h | ⟨ai, h⟩ | ⟨t, h⟩ | ⟨ai, t, h⟩
    · exact Or.inl (by rw [h])
    · rw [h, getState_setState]
      by_cases he : (⟨integ, "fetch_farm_observations", cfg.farm_id⟩ : StateKey) = k'
      · rw [if_pos he]
        exact Or.inr ⟨ai, rfl⟩
      · rw [if_neg he]
        exact Or.inl rfl
    · rw [h, getState_setState, if_neg hcur]
      exact Or.inl rfl
    · rw [h, getState_setState, if_neg hcur, getState_setState]
      by_cases he : (⟨integ, "fetch_farm_observations", cfg.farm_id⟩ : StateKey) = k'
      · rw [if_pos he]
        exact Or.inr ⟨ai, rfl⟩
      · rw [if_neg he]
        exact Or.inl rfl
  · intro integ cfg fetchObs fetchRoster sink store k' hk'
    have hcache : (⟨integ, "fetch_farm_observations", cfg.farm_id⟩ : StateKey) ≠ k' := by
      rintro rfl
      simp at hk'
    rcases action_fetch_store_shape integ cfg fetchObs fetchRoster sink store with
      h | ⟨ai, h⟩ | ⟨t, h⟩ | ⟨ai, t, h⟩
    · exact Or.inl (by rw [h])
    · rw [h, getState_setState, if_neg hcache]
      exact Or.inl rfl
    · rw [h, getState_setState]
      by_cases he : (⟨integ, "pull_observations", cfg.farm_id⟩ : StateKey) = k'
      · rw [if_pos he]
        exact Or.inr ⟨t, rfl⟩
      · rw [if_neg he]
        exact Or.inl rfl
    · rw [h, getState_setState]
      by_cases he : (⟨integ, "pull_observations", cfg.farm_id⟩ : StateKey) = k'
      · rw [if_pos he]
        exact Or.inr ⟨t, rfl⟩
      · rw [if_neg he, getState_setState, if_neg hcache]
        exact Or.inl rfl

/-- Claim C10 witness: concrete cache writes, expiries and a full cycle
leave the other namespace's entry untouched. -/
theorem state_namespace_separation_witness :
    getState (setState [(⟨"i", "pull_observations", "F1"⟩, StateVal.cursor 7)]
        ⟨"i", "fetch_farm_observations", "F1"⟩ (.roster aiA))
      ⟨"i", "pull_observations", "F1"⟩ =
      getState [(⟨"i", "pull_observations", "F1"⟩, StateVal.cursor 7)]
        ⟨"i", "pull_observations", "F1"⟩
  ∧ getState (expireState [(⟨"i", "pull_observations", "F1"⟩, StateVal.cursor 7)]
        ⟨"i", "fetch_farm_observations", "F1"⟩)
      ⟨"i", "pull_observations", "F1"⟩ =
      getState [(⟨"i", "pull_observations", "F1"⟩, StateVal.cursor 7)]
        ⟨"i", "pull_observations", "F1"⟩
  ∧ (getState (action_fetch_farm_observations "i" cfgA (.ok (.observations [obsMatched]))
        (.ok aiA) sinkOk []).store ⟨"i", "fetch_farm_observations", "F1"⟩ =
        getState [] ⟨"i", "fetch_farm_observations", "F1"⟩
      ∨ ∃ ai, getState (action_fetch_farm_observations "i" cfgA
          (.ok (.observations [obsMatched])) (.ok aiA) sinkOk []).store
          ⟨"i", "fetch_farm_observations", "F1"⟩ = some (.roster ai))
  ∧ (getState (action_fetch_farm_observations "i" cfgA (.ok (.observations [obsMatched]))
        (.ok aiA) sinkOk []).store ⟨"i", "pull_observations", "F1"⟩ =
        getState [] ⟨"i", "pull_observations", "F1"⟩
      ∨ ∃ t, getState (action_fetch_farm_observations "i" cfgA
          (.ok (.observations [obsMatched])) (.ok aiA) sinkOk []).store
          ⟨"i", "pull_observations", "F1"⟩ = some (.cursor t)) :=
  ⟨state_namespace_separation.1 _ _ _ _ (by decide),
   state_namespace_separation.2.1 _ _ _ (by decide),
   state_namespace_separation.2.2.2.1 "i" cfgA _ _ sinkOk [] _ rfl,
   state_namespace_separation.2.2.2.2 "i" cfgA _ _ sinkOk [] _ rfl⟩

/-- Claim C1: on a cycle that returned at least one observation, the cursor
state is written exactly once (the single `wroteCursor` event, last, after
every successful batch dispatch), its value is the maximum observation
timestamp seen in the cycle; on any raised error — in particular a batch
dispatch failure — the cursor write is not reached and the stored cursor is
unchanged. -/
theorem cursor_write_discipline (integ : String) (cfg : PullFarmObservationsConfig)
    (obs : List FarmLocation) (fetchRoster : Except RumiError AnimalsInfo)
    (sink : List CanonicalObservation → Except Unit (List String)) (store : StateStore)
    (hobs : obs ≠ []) :
    (∀ n, (action_fetch_farm_observations integ cfg (.ok (.observations obs))
        fetchRoster sink store).result = .ok n →
      ∃ evs t,
        (action_fetch_farm_observations integ cfg (.ok (.observations obs))
            fetchRoster sink store).events =
          evs ++ [.wroteCursor ⟨integ, "pull_observations", cfg.farm_id⟩ t]
        ∧ (∀ e ∈ evs, ∃ b, e = .sent b)
        ∧ (∀ o ∈ obs, o.time ≤ t)
        ∧ (∃ o ∈ obs, o.time = t)
        ∧ getState (action_fetch_farm_observations integ cfg (.ok (.observations obs))
            fetchRoster sink store).store ⟨integ, "pull_observations", cfg.farm_id⟩ =
            some (.cursor t))
  ∧ (∀ e, (action_fetch_farm_observations integ cfg (.ok (.observations obs))
        fetchRoster sink store).result = .error e →
      (∀ k t, Event.wroteCursor k t ∉ (action_fetch_farm_observations integ cfg
          (.ok (.observations obs)) fetchRoster sink store).events)
      ∧ getState (action_fetch_farm_observations integ cfg (.ok (.observations obs))
          fetchRoster sink store).store ⟨integ, "pull_observations", cfg.farm_id⟩ =
          getState store ⟨integ, "pull_observations", cfg.farm_id⟩) := by
  cases hga : get_animals_info integ cfg fetchRoster store with
  | error e0 =>
    rw [action_fetch_eval_roster_error integ cfg _ e0 fetchRoster sink store
      (obsTruthy_observations hobs) hga]
    constructor
    · intro n hn; cases hn
    · intro e _
      exact ⟨(by intro k t h; cases h), rfl⟩
  | ok p =>
    obtain ⟨ai, store1⟩ := p
    have hframe : getState store1 ⟨integ, "pull_observations", cfg.farm_id⟩ =
        getState store ⟨integ, "pull_observations", cfg.farm_id⟩ := by
      rcases get_animals_info_store integ cfg fetchRoster store ai store1 hga with h | h
      · rw [h]
      · rw [h, getState_setState, if_neg (cacheKey_ne_cursorKey integ cfg.farm_id)]
    cases hmt : obs.mapM (transform cfg ai) with
    | none =>
      rw [action_fetch_eval_keyError integ cfg obs fetchRoster sink store ai store1 hobs hga hmt]
      constructor
      · intro n hn; cases hn
      · intro e _
        exact ⟨(by intro k t h; cases h), hframe⟩
    | some td =>
      cases hd : (dispatchBatches sink (generate_batches 200 td)).2 with
      | error u =>
        cases u
        rw [action_fetch_eval_dispatch_error integ cfg obs fetchRoster sink store
          ai store1 td hobs hga hmt hd]
        constructor
        · intro n hn; cases hn
        · intro e _
          refine ⟨?_, hframe⟩
          intro k t h
          obtain ⟨b, hb⟩ := dispatchBatches_events_sent sink (generate_batches 200 td) _ h
          cases hb
      | ok m =>
        rw [action_fetch_eval_ok integ cfg obs fetchRoster sink store ai store1 td m
          hobs hga hmt hd]
        constructor
        · intro n _
          obtain ⟨hub, o, ho, hattain⟩ := maxTime_spec obs hobs
          exact ⟨(dispatchBatches sink (generate_batches 200 td)).1, maxTime obs, rfl,
            dispatchBatches_events_sent sink (generate_batches 200 td),
            hub, ⟨o, ho, hattain⟩,
            by rw [getState_setState, if_pos rfl]⟩
        · intro e he; cases he

/-- Claim C1 witness: a two-observation cycle against an all-accepting sink
writes the cursor exactly once with the maximum timestamp 9; the same cycle
against an always-failing sink leaves the store without a cursor entry. -/
theorem cursor_write_discipline_witness :
    (∃ evs t,
      (action_fetch_farm_observations "i" cfgA
          (.ok (.observations [obsMatched, obsUnmatched])) (.ok aiA) sinkOk []).events =
        evs ++ [.wroteCursor ⟨"i", "pull_observations", cfgA.farm_id⟩ t]
      ∧ (∀ e ∈ evs, ∃ b, e = .sent b)
      ∧ (∀ o ∈ [obsMatched, obsUnmatched], o.time ≤ t)
      ∧ (∃ o ∈ [obsMatched, obsUnmatched], o.time = t)
      ∧ getState (action_fetch_farm_observations "i" cfgA
          (.ok (.observations [obsMatched, obsUnmatched])) (.ok aiA) sinkOk []).store
          ⟨"i", "pull_observations", cfgA.farm_id⟩ = some (.cursor t))
  ∧ ((∀ k t, Event.wroteCursor k t ∉ (action_fetch_farm_observations "i" cfgA
        (.ok (.observations [obsMatched, obsUnmatched])) (.ok aiA)
        (fun _ => .error ()) []).events)
      ∧ getState (action_fetch_farm_observations "i" cfgA
          (.ok (.observations [obsMatched, obsUnmatched])) (.ok aiA)
          (fun _ => .error ()) []).store ⟨"i", "pull_observations", cfgA.farm_id⟩ =
          getState [] ⟨"i", "pull_observations", cfgA.farm_id⟩) :=
  ⟨(cursor_write_discipline "i" cfgA [obsMatched, obsUnmatched] (.ok aiA) sinkOk []
      (by decide)).1 2 rfl,
   (cursor_write_discipline "i" cfgA [obsMatched, obsUnmatched] (.ok aiA)
      (fun _ => .error ()) [] (by decide)).2 .dispatch rfl⟩

/-- Claim C6: for M transformed records, dispatch produces ceil(M/200)
batches (the ceiling written as `(M.length + 199) / 200`), each of size at
most 200, whose concatenation preserves the original record order; when
every batch dispatch succeeds, the accumulated `observations_extracted`
returned by the action is the sum over all batches of the number of
accepted records reported by the sink. -/
theorem dispatch_batching_spec (M : List CanonicalObservation)
    (sink : List CanonicalObservation → Except Unit (List String))
    (resp : List CanonicalObservation → List String)
    (hsink : ∀ b ∈ generate_batches 200 M, sink b = .ok (resp b)) :
    (generate_batches 200 M).length = (M.length + 199) / 200
  ∧ (∀ b ∈ generate_batches 200 M, b.length ≤ 200)
  ∧ (generate_batches 200 M).flatten = M
  ∧ (dispatchBatches sink (generate_batches 200 M)).2 =
      .ok (((generate_batches 200 M).map fun b => (resp b).length).sum)
  ∧ (∀ (integ : String) (cfg : PullFarmObservationsConfig) (obs : List FarmLocation)
      (fetchRoster : Except RumiError AnimalsInfo) (store : StateStore)
      (ai : AnimalsInfo) (store1 : StateStore),
      obs ≠ [] →
      get_animals_info integ cfg fetchRoster store = .ok (ai, store1) →
      obs.mapM (transform cfg ai) = some M →
      (action_fetch_farm_observations integ cfg (.ok (.observations obs))
        fetchRoster sink store).result =
        .ok (((generate_batches 200 M).map fun b => (resp b).length).sum)) := by
  have hall := dispatchBatches_all_ok sink resp (generate_batches 200 M) hsink
  refine ⟨generate_batches_count 200 (by omega) M, generate_batches_sizes 200 M,
    generate_batches_join 200 (by omega) M, by rw [hall], ?_⟩
  intro integ cfg obs fetchRoster store ai store1 hobs hga hmt
  rw [action_fetch_eval_ok integ cfg obs fetchRoster sink store ai store1 M
    (((generate_batches 200 M).map fun b => (resp b).length).sum) hobs hga hmt
    (by rw [hall])]

/-- Claim C6 witness: two transformed records against an all-accepting sink
form one batch of two, and the action returns their accepted count. -/
theorem dispatch_batching_spec_witness :
    (generate_batches 200 [canA, canB]).length = (([canA, canB] : List _).length + 199) / 200
  ∧ (∀ b ∈ generate_batches 200 [canA, canB], b.length ≤ 200)
  ∧ (generate_batches 200 [canA, canB]).flatten = [canA, canB]
  ∧ (dispatchBatches sinkOk (generate_batches 200 [canA, canB])).2 =
      .ok (((generate_batches 200 [canA, canB]).map fun b => (respOk b).length).sum)
  ∧ (∀ (integ : String) (cfg : PullFarmObservationsConfig) (obs : List FarmLocation)
      (fetchRoster : Except RumiError AnimalsInfo) (store : StateStore)
      (ai : AnimalsInfo) (store1 : StateStore),
      obs ≠ [] →
      get_animals_info integ cfg fetchRoster store = .ok (ai, store1) →
      obs.mapM (transform cfg ai) = some [canA, canB] →
      (action_fetch_farm_observations integ cfg (.ok (.observations obs))
        fetchRoster sinkOk store).result =
        .ok (((generate_batches 200 [canA, canB]).map fun b => (respOk b).length).sum)) :=
  dispatch_batching_spec [canA, canB] sinkOk respOk (fun b _ => rfl)

/-- Claim C4 (code refutation): with the `stop` default evaluated at
module-import time 0 and a cycle running at now = 5, the single per-farm
work item carries stop = 0, the import-time value — present (not omitted)
and strictly earlier than the cycle's now. -/
theorem pull_stop_is_import_time :
    (action_pull_observations 0 5 2 "u1" "tk" "i"
        (.ok (.farms [{ id := "F1", name := "Farm One" }])) []).triggered =
      [{ start := 5 - 86400 * 2, stop := 0, locations := "all", farm_id := "F1",
         farm_name := "Farm One", user_id := "u1", token := "tk" }]
  ∧ (0 : Int) < 5 := by
  constructor
  · decide
  · decide

/-- Claim C3 (code refutation): `get_farm_observations` raises
`AttributeError` for every config — `config.start.isoformat()` is called
on a `str` field, before any request is issued — so no client result is
ever returned for any response body; in particular a fetch whose JSON
body is an empty array does not yield an empty result, and the farm cycle
aborts with the propagated error (no batches sent, cursor untouched)
instead of ending with a zero-count outcome. -/
theorem fetch_observations_always_raises :
    (∀ config : PullFarmObservationsConfig,
      get_farm_observations config = .error .attributeError)
  ∧ (action_fetch_farm_observations "i" cfgA (get_farm_observations cfgA)
      (.ok aiA) sinkOk []).result = .error (.fetch .attributeError)
  ∧ (action_fetch_farm_observations "i" cfgA (get_farm_observations cfgA)
      (.ok aiA) sinkOk []).events = []
  ∧ getState (action_fetch_farm_observations "i" cfgA (get_farm_observations cfgA)
      (.ok aiA) sinkOk []).store ⟨"i", "pull_observations", "F1"⟩ =
      getState [] ⟨"i", "pull_observations", "F1"⟩ :=
  ⟨fun _ => rfl, rfl, rfl, rfl⟩

/-- Claim C8: for every location string assembled as `<lat>::<lon>` from two
halves that parse as floats, `split_location` yields exactly the pair of the
two halves parsed independently; for every string without the `::` delimiter,
and for every string splitting into two halves of which one does not parse
as a float, `split_location` fails (returns `none`, modelling the raised
parse/validation error). -/
theorem split_location_spec :
    (∀ (s₁ s₂ : List Char) (a b : ℚ),
      parseFloat s₁ = some a → parseFloat s₂ = some b →
      split_location (String.mk (s₁ ++ ':' :: ':' :: s₂)) = some (a, b))
  ∧ (∀ v : String, ¬ ([':', ':'] <:+: v.toList) → split_location v = none)
  ∧ (∀ (v : String) (l₁ l₂ : List Char), splitColons v.toList = [l₁, l₂] →
      parseFloat l₁ = none ∨ parseFloat l₂ = none → split_location v = none) := by
  refine ⟨?_, ?_, ?_⟩
  · intro s₁ s₂ a b h₁ h₂
    have hc1 : ':' ∉ s₁ := fun hc => parseFloat_chars s₁ a h₁ ':' hc rfl
    have hc2 : ':' ∉ s₂ := fun hc => parseFloat_chars s₂ b h₂ ':' hc rfl
    have htl : (String.mk (s₁ ++ ':' :: ':' :: s₂)).toList = s₁ ++ ':' :: ':' :: s₂ := rfl
    simp only [split_location, htl, splitColons_append s₁ s₂ hc1,
      splitColons_no_sep s₂ (colon_not_mem_no_sep hc2), h₁, h₂]
  · intro v hv
    simp only [split_location, splitColons_no_sep v.toList hv]
  · intro v l₁ l₂ hsplit hpf
    simp only [split_location, hsplit]
    rcases hpf with hpf | hpf
    · rw [hpf]
    · rw [hpf]
      cases parseFloat l₁ <;> rfl

/-- Claim C8 witness: a well-formed location string splits into the two
independently parsed halves; a delimiter-free string and a string with a
non-numeric half both fail to parse. -/
theorem split_location_spec_witness :
    split_location (String.mk ("1.5".toList ++ ':' :: ':' :: "-2.25e1".toList)) =
      some ((parseFloat "1.5".toList).getD 0, (parseFloat "-2.25e1".toList).getD 0)
  ∧ split_location "abc" = none
  ∧ split_location "x::1" = none :=
  ⟨split_location_spec.1 "1.5".toList "-2.25e1".toList _ _
      (option_eq_some_getD _ 0 rfl) (option_eq_some_getD _ 0 rfl),
   split_location_spec.2.1 "abc" (by decide),
   split_location_spec.2.2 "x::1" "x".toList "1".toList (by decide) (Or.inl rfl)⟩

theorem mapM_transform_some (cfg : PullFarmObservationsConfig) (ai : AnimalsInfo)
    (h : rosterOKb ai = true) :
    ∀ obs : List FarmLocation, ∃ td, obs.mapM (transform cfg ai) = some td := by
  have hp : ∀ p ∈ ai, ∀ a ∈ p.2, (dlookup a "rumi_id").isSome := by
    intro p hpmem a hamem
    have h1 := List.all_eq_true.mp h p hpmem
    exact List.all_eq_true.mp h1 a hamem
  intro obs
  induction obs with
  | nil => exact ⟨[], rfl⟩
  | cons o rest ih =>
    obtain ⟨td, htd⟩ := ih
    have hsome : (transform cfg ai o).isSome := by
      rw [Option.isSome_iff_ne_none]
      intro hnone
      rw [transform_eq_none_iff, buildRumiIdMap_eq_none_iff] at hnone
      obtain ⟨p, hpmem, a, hamem, hnone⟩ := hnone
      have := hp p hpmem a hamem
      rw [hnone] at this
      simp at this
    obtain ⟨c, hc⟩ := Option.isSome_iff_exists.mp hsome
    refine ⟨c :: td, ?_⟩
    rw [List.mapM_cons, hc, htd]
    rfl

theorem get_animals_info_run (integ : String) (cfg : PullFarmObservationsConfig)
    (store : StateStore) (ai : AnimalsInfo)
    (hro : rosterOKb ai = true) (hcache : cacheOKb integ cfg store = true) :
    ∃ ai2 store1, get_animals_info integ cfg (.ok ai) store = .ok (ai2, store1)
      ∧ rosterOKb ai2 = true
      ∧ cacheOKb integ cfg store1 = true
      ∧ getState store1 (cursorKeyOf integ cfg) = getState store (cursorKeyOf integ cfg) := by
  have hne : cacheKeyOf integ cfg ≠ cursorKeyOf integ cfg :=
    cacheKey_ne_cursorKey integ cfg.farm_id
  have hfresh : cacheOKb integ cfg
      (setState store (cacheKeyOf integ cfg) (.roster ai)) = true := by
    simp only [cacheOKb, getState_setState, if_pos rfl]
    exact hro
  have hcursor : getState (setState store (cacheKeyOf integ cfg) (.roster ai))
      (cursorKeyOf integ cfg) = getState store (cursorKeyOf integ cfg) := by
    rw [getState_setState, if_neg hne]
  simp only [cacheOKb] at hcache
  cases hg : getState store (cacheKeyOf integ cfg) with
  | none =>
    refine ⟨ai, setState store (cacheKeyOf integ cfg) (.roster ai), ?_, hro, hfresh, hcursor⟩
    simp only [get_animals_info]
    simp only [cacheKeyOf] at hg
    rw [hg]
    rfl
  | some v =>
    cases v with
    | cursor t =>
      refine ⟨ai, setState store (cacheKeyOf integ cfg) (.roster ai), ?_, hro, hfresh, hcursor⟩
      simp only [get_animals_info]
      simp only [cacheKeyOf] at hg
      rw [hg]
      rfl
    | roster ai0 =>
      by_cases he : ai0.isEmpty
      · refine ⟨ai, setState store (cacheKeyOf integ cfg) (.roster ai), ?_, hro, hfresh, hcursor⟩
        simp only [get_animals_info]
        simp only [cacheKeyOf] at hg
        rw [hg]
        simp [he, cacheKeyOf]
      · refine ⟨ai0, store, ?_, ?_, ?_, rfl⟩
        · simp only [get_animals_info]
          simp only [cacheKeyOf] at hg
          rw [hg]
          simp [he]
        · rw [hg] at hcache
          exact hcache
        · simp only [cacheOKb, hg]
          rw [hg] at hcache
          exact hcache

theorem runCycle_step (integ : String) (cfg : PullFarmObservationsConfig)
    (cycle : List FarmLocation × AnimalsInfo) (store : StateStore)
    (hro : rosterOKb cycle.2 = true) (hcache : cacheOKb integ cfg store = true) :
    getCursor integ cfg (runCycle integ cfg cycle store).store =
      nextCursor (getCursor integ cfg store) cycle.1
  ∧ cacheOKb integ cfg (runCycle integ cfg cycle store).store = true := by
  obtain ⟨obs, ai⟩ := cycle
  by_cases hobs : obs = []
  · subst hobs
    simp only [runCycle, action_fetch_eval_empty, nextCursor, List.isEmpty_nil, if_true]
    exact ⟨trivial, hcache⟩
  · obtain ⟨ai2, store1, hga, hro2, hcache1, hcur1⟩ :=
      get_animals_info_run integ cfg store ai hro hcache
    obtain ⟨td, htd⟩ := mapM_transform_some cfg ai2 hro2 obs
    have hd := dispatchBatches_all_ok sinkOk respOk (generate_batches 200 td)
      (fun b _ => rfl)
    have hd2 : (dispatchBatches sinkOk (generate_batches 200 td)).2 =
        .ok (((generate_batches 200 td).map fun b => (respOk b).length).sum) := by
      rw [hd]
    have heval := action_fetch_eval_ok integ cfg obs (.ok ai) sinkOk store ai2 store1 td
      (((generate_batches 200 td).map fun b => (respOk b).length).sum) hobs hga htd hd2
    constructor
    · simp only [runCycle, heval, getCursor, cursorKeyOf]
      rw [getState_setState, if_pos rfl]
      simp [nextCursor, hobs]
    · simp only [runCycle, heval, cacheOKb, cacheKeyOf]
      rw [getState_setState,
        if_neg (fun hk => cacheKey_ne_cursorKey integ cfg.farm_id hk.symm)]
      simp only [cacheOKb, cacheKeyOf] at hcache1
      exact hcache1

theorem runCycles_cursor (integ : String) (cfg : PullFarmObservationsConfig) :
    ∀ (cycles : List (List FarmLocation × AnimalsInfo)) (store : StateStore),
      allRostersOKb cycles = true → cacheOKb integ cfg store = true →
      getCursor integ cfg (runCycles integ cfg cycles store) =
        cursorSpec (getCursor integ cfg store) (cycles.map Prod.fst)
    ∧ cacheOKb integ cfg (runCycles integ cfg cycles store) = true := by
  intro cycles
  induction cycles with
  | nil => intro store _ hcache; exact ⟨rfl, hcache⟩
  | cons cycle rest ih =>
    intro store hro hcache
    have hro1 : rosterOKb cycle.2 = true :=
      List.all_eq_true.mp hro cycle (List.mem_cons_self _ _)
    have hrorest : allRostersOKb rest = true := by
      apply List.all_eq_true.mpr
      intro c hc
      exact List.all_eq_true.mp hro c (List.mem_cons_of_mem _ hc)
    obtain ⟨hstep, hcache1⟩ := runCycle_step integ cfg cycle store hro1 hcache
    obtain ⟨ihc, ihcache⟩ := ih (runCycle integ cfg cycle store).store hrorest hcache1
    refine ⟨?_, ihcache⟩
    simp only [runCycles, List.map_cons, cursorSpec, List.foldl_cons]
    rw [ihc, hstep]
    rfl

theorem nextCursor_nonempty {obs : List FarmLocation} (h : obs ≠ []) (c : Option Int) :
    nextCursor c obs = some (maxTime obs) := by
  simp [nextCursor, h]

theorem windowSpec_append :
    ∀ (pre post : List (List FarmLocation)) (c : Option Int),
      windowRespectingSpecb c (pre ++ post) = true →
      windowRespectingSpecb c pre = true
      ∧ windowRespectingSpecb (cursorSpec c pre) post = true := by
  intro pre
  induction pre with
  | nil => intro post c h; exact ⟨rfl, h⟩
  | cons obs rest ih =>
    intro post c h
    simp only [List.cons_append, windowRespectingSpecb, Bool.and_eq_true] at h
    obtain ⟨h1, h2⟩ := h
    obtain ⟨h3, h4⟩ := ih post (nextCursor c obs) h2
    refine ⟨?_, ?_⟩
    · simp only [windowRespectingSpecb, Bool.and_eq_true]
      exact ⟨h1, h3⟩
    · simpa [cursorSpec, List.foldl_cons] using h4

theorem cursorSpec_mono_some :
    ∀ (obss : List (List FarmLocation)) (c : Option Int) (t t' : Int),
      windowRespectingSpecb c obss = true → c = some t →
      cursorSpec c obss = some t' → t ≤ t' := by
  intro obss
  induction obss with
  | nil =>
    intro c t t' _ hc hcs
    rw [hc] at hcs
    injection hcs with h
    exact le_of_eq h
  | cons obs rest ih =>
    intro c t t' hw hc hcs
    simp only [windowRespectingSpecb, Bool.and_eq_true] at hw
    obtain ⟨h1, h2⟩ := hw
    simp only [cursorSpec, List.foldl_cons] at hcs
    by_cases hobs : obs = []
    · subst hobs
      exact ih _ t t' h2 hc hcs
    · have hnc : nextCursor c obs = some (maxTime obs) := nextCursor_nonempty hobs c
      rw [hc] at h1
      obtain ⟨hub, o, ho, hattain⟩ := maxTime_spec obs hobs
      have hto : t ≤ maxTime obs := by
        rw [← hattain]
        exact of_decide_eq_true (List.all_eq_true.mp h1 o ho)
      exact le_trans hto (ih _ (maxTime obs) t' h2 hnc hcs)

theorem cursorSpec_upper :
    ∀ (obss : List (List FarmLocation)) (c : Option Int) (t' : Int),
      windowRespectingSpecb c obss = true → cursorSpec c obss = some t' →
      ∀ obs ∈ obss, ∀ o ∈ obs, o.time ≤ t' := by
  intro obss
  induction obss with
  | nil => intro c t' _ _ obs hobs; cases hobs
  | cons obs0 rest ih =>
    intro c t' hw hcs obs hmem o ho
    simp only [windowRespectingSpecb, Bool.and_eq_true] at hw
    obtain ⟨h1, h2⟩ := hw
    simp only [cursorSpec, List.foldl_cons] at hcs
    rcases List.mem_cons.mp hmem with rfl | hmem
    · have hobs0 : obs ≠ [] := by
        intro he
        rw [he] at ho
        cases ho
      have hnc : nextCursor c obs = some (maxTime obs) := nextCursor_nonempty hobs0 c
      have hmono := cursorSpec_mono_some rest (nextCursor c obs) (maxTime obs) t' h2 hnc hcs
      exact le_trans ((maxTime_spec obs hobs0).1 o ho) hmono
    · exact ih (nextCursor c obs0) t' h2 hcs obs hmem o ho

theorem cursorSpec_all_empty :
    ∀ (obss : List (List FarmLocation)) (c : Option Int),
      (∀ obs ∈ obss, obs = []) → cursorSpec c obss = c := by
  intro obss
  induction obss with
  | nil => intro c _; rfl
  | cons obs0 rest ih =>
    intro c h
    have h0 : obs0 = [] := h obs0 (List.mem_cons_self _ _)
    subst h0
    simp only [cursorSpec, List.foldl_cons]
    exact ih c (fun obs hm => h obs (List.mem_cons_of_mem _ hm))

theorem cursorSpec_attained :
    ∀ (obss : List (List FarmLocation)) (c : Option Int) (t' : Int),
      (∃ obs ∈ obss, obs ≠ []) → cursorSpec c obss = some t' →
      ∃ obs ∈ obss, ∃ o ∈ obs, o.time = t' := by
  intro obss
  induction obss with
  | nil => rintro c t' ⟨obs, hm, _⟩ _; cases hm
  | cons obs0 rest ih =>
    intro c t' hne hcs
    simp only [cursorSpec, List.foldl_cons] at hcs
    by_cases hrest : ∃ obs ∈ rest, obs ≠ []
    · obtain ⟨obs, hm, o, ho, he⟩ := ih (nextCursor c obs0) t' hrest hcs
      exact ⟨obs, List.mem_cons_of_mem _ hm, o, ho, he⟩
    · have hallrest : ∀ obs ∈ rest, obs = [] := by
        intro obs hm
        by_contra hne2
        exact hrest ⟨obs, hm, hne2⟩
      have hcs2 : nextCursor c obs0 = some t' := by
        rw [← cursorSpec_all_empty rest (nextCursor c obs0) hallrest]
        exact hcs
      have hobs0 : obs0 ≠ [] := by
        rcases hne with ⟨obs, hm, hne2⟩
        rcases List.mem_cons.mp hm with rfl | hm
        · exact hne2
        · exact absurd (hallrest obs hm) hne2
      rw [nextCursor_nonempty hobs0 c] at hcs2
      injection hcs2 with ht
      obtain ⟨_, o, ho, hat⟩ := maxTime_spec obs0 hobs0
      exact ⟨obs0, List.mem_cons_self _ _, o, ho, by rw [hat, ht]⟩

theorem cursorSpec_isSome_keep :
    ∀ (obss : List (List FarmLocation)) (c : Option Int) (t : Int),
      c = some t → ∃ t', cursorSpec c obss = some t' := by
  intro obss
  induction obss with
  | nil => intro c t hc; exact ⟨t, hc⟩
  | cons obs0 rest ih =>
    intro c t hc
    simp only [cursorSpec, List.foldl_cons]
    by_cases hobs : obs0 = []
    · subst hobs
      exact ih c t hc
    · exact ih _ (maxTime obs0) (nextCursor_nonempty hobs c)

theorem cursorSpec_some_of_nonempty :
    ∀ (obss : List (List FarmLocation)) (c : Option Int),
      (∃ obs ∈ obss, obs ≠ []) → ∃ t', cursorSpec c obss = some t' := by
  intro obss
  induction obss with
  | nil => rintro c ⟨obs, hm, _⟩; cases hm
  | cons obs0 rest ih =>
    intro c hne
    simp only [cursorSpec, List.foldl_cons]
    by_cases hobs : obs0 = []
    · subst hobs
      have hrest : ∃ obs ∈ rest, obs ≠ [] := by
        rcases hne with ⟨obs, hm, hne2⟩
        rcases List.mem_cons.mp hm with rfl | hm
        · exact absurd rfl hne2
        · exact ⟨obs, hm, hne2⟩
      exact ih _ hrest
    · exact cursorSpec_isSome_keep rest _ (maxTime obs0) (nextCursor_nonempty hobs c)

/-- Claim C2: across consecutive successful sync cycles for a farm (vendor
fetch and roster fetch succeed, every batch accepted, rosters well-keyed),
with the vendor honouring the queried window (each cycle's observation
timestamps at or after the cursor stored when that cycle starts), the
stored cursor is monotonically non-decreasing — for every split of the
cycles into a prefix and a suffix, the cursor after the prefix is ≤ the
cursor after all cycles — and when at least one cycle returned
observations, the final stored cursor equals the maximum observation
timestamp seen across all N cycles (it bounds every timestamp and is
attained by one). -/
theorem cursor_monotonicity (integ : String) (cfg : PullFarmObservationsConfig)
    (cycles : List (List FarmLocation × AnimalsInfo)) (store : StateStore)
    (hro : allRostersOKb cycles = true)
    (hcache : cacheOKb integ cfg store = true)
    (hwin : windowRespectingSpecb (getCursor integ cfg store)
      (cycles.map Prod.fst) = true) :
    (∀ pre post, cycles = pre ++ post →
      ∀ t t', getCursor integ cfg (runCycles integ cfg pre store) = some t →
        getCursor integ cfg (runCycles integ cfg cycles store) = some t' → t ≤ t')
  ∧ ((∃ cycle ∈ cycles, cycle.1 ≠ []) →
      ∃ t', getCursor integ cfg (runCycles integ cfg cycles store) = some t'
        ∧ (∀ cycle ∈ cycles, ∀ o ∈ cycle.1, o.time ≤ t')
        ∧ (∃ cycle ∈ cycles, ∃ o ∈ cycle.1, o.time = t')) := by
  constructor
  · intro pre post hsplit t t' hpre hall
    subst hsplit
    have hropre : allRostersOKb pre = true := by
      apply List.all_eq_true.mpr
      intro c hc
      exact List.all_eq_true.mp hro c (List.mem_append_left _ hc)
    obtain ⟨hpreeq, _⟩ := runCycles_cursor integ cfg pre store hropre hcache
    obtain ⟨halleq, _⟩ := runCycles_cursor integ cfg (pre ++ post) store hro hcache
    rw [hpreeq] at hpre
    rw [halleq] at hall
    rw [List.map_append] at hall hwin
    obtain ⟨_, hwpost⟩ := windowSpec_append (pre.map Prod.fst) (post.map Prod.fst) _ hwin
    simp only [cursorSpec, List.foldl_append] at hall
    exact cursorSpec_mono_some (post.map Prod.fst) _ t t' hwpost hpre hall
  · intro hne
    obtain ⟨halleq, _⟩ := runCycles_cursor integ cfg cycles store hro hcache
    have hne2 : ∃ obs ∈ cycles.map Prod.fst, obs ≠ [] := by
      obtain ⟨cycle, hm, hnee⟩ := hne
      exact ⟨cycle.1, List.mem_map_of_mem _ hm, hnee⟩
    obtain ⟨t', ht'⟩ := cursorSpec_some_of_nonempty (cycles.map Prod.fst)
      (getCursor integ cfg store) hne2
    refine ⟨t', by rw [halleq]; exact ht', ?_, ?_⟩
    · intro cycle hm o ho
      exact cursorSpec_upper (cycles.map Prod.fst) _ t' hwin ht' cycle.1
        (List.mem_map_of_mem _ hm) o ho
    · obtain ⟨obs, hm, o, ho, he⟩ := cursorSpec_attained (cycles.map Prod.fst) _ t' hne2 ht'
      obtain ⟨cycle, hcm, hceq⟩ := List.mem_map.mp hm
      refine ⟨cycle, hcm, o, ?_, he⟩
      rw [hceq]
      exact ho

/-- Claim C2 witness: two successful cycles (timestamps 5 then 9) starting
from an empty store leave the cursor at 9, the prefix cursor 5 is ≤ 9, and
9 is the maximum timestamp across both cycles. -/
theorem cursor_monotonicity_witness :
    (5 : Int) ≤ 9
  ∧ (∃ t', getCursor "i" cfgA
        (runCycles "i" cfgA [([obsMatched], aiA), ([obsUnmatched], aiA)] []) = some t'
      ∧ (∀ cycle ∈ [([obsMatched], aiA), ([obsUnmatched], aiA)], ∀ o ∈ cycle.1, o.time ≤ t')
      ∧ (∃ cycle ∈ [([obsMatched], aiA), ([obsUnmatched], aiA)], ∃ o ∈ cycle.1, o.time = t')) :=
  ⟨(cursor_monotonicity "i" cfgA [([obsMatched], aiA), ([obsUnmatched], aiA)] []
      (by decide) rfl (by decide)).1
      [([obsMatched], aiA)] [([obsUnmatched], aiA)] rfl 5 9 rfl rfl,
   (cursor_monotonicity "i" cfgA [([obsMatched], aiA), ([obsUnmatched], aiA)] []
      (by decide) rfl (by decide)).2
      ⟨([obsMatched], aiA), List.mem_cons_self _ _, by decide⟩⟩

end Rumi
